import Mathlib

set_option autoImplicit false

/-!
Shallow embedding of the location-resolution and caching pipeline of
`scripts/count_countries.py` (country-counter repository).

Python dicts are modelled as insertion-ordered association lists
(`List (String × α)`): `dget` is `d.get(k)` / `k in d`, `dset` is
`d[k] = v` (overwrite in place, append if new), `dupdate` is
`d.update(other)`, and filtering a key models dict comprehensions that
drop it.  Machine floats are modelled as exact parsed
decimals: the regex character class `[-\d.]` only admits plain decimal
literals, which parse exactly, and the `:.6f` formatting is decimal
rounding (half-to-even) at six places.  The Google Maps HTTP calls are modelled by an oracle giving
each request's outcome (transport error, non-OK status, or an OK payload
of address components).
-/

namespace CountryCounter

/-! Python dict operations on insertion-ordered association lists. -/

def dget {α : Type} : List (String × α) → String → Option α
  | [], _ => none
  | (k', v) :: rest, k => if k' = k then some v else dget rest k

def dset {α : Type} : List (String × α) → String → α → List (String × α)
  | [], k, v => [(k, v)]
  | (k', v') :: rest, k, v =>
      if k' = k then (k, v) :: rest else (k', v') :: dset rest k v

def dkeys {α : Type} (d : List (String × α)) : List String := d.map Prod.fst

def dupdate {α : Type} : List (String × α) → List (String × α) → List (String × α)
  | base, [] => base
  | base, (k, v) :: rest => dupdate (dset base k v) rest

/-! Character classes used by the Python regexes and string methods. -/

def isPySpace (c : Char) : Bool :=
  c == ' ' || c == '\t' || c == '\n' || c == '\r' || c == '\x0b' || c == '\x0c'

def pyStrip (s : String) : String :=
  String.mk (((s.data.dropWhile isPySpace).reverse.dropWhile isPySpace).reverse)

def isHexChar (c : Char) : Bool :=
  c.isDigit || ('a' ≤ c && c ≤ 'f') || ('A' ≤ c && c ≤ 'F')

def isCoordChar (c : Char) : Bool :=
  c.isDigit || c == '-' || c == '.'

/-- Leftmost-match regex search: try the matcher at every suffix, in order,
as `re.search` advances the match start one position at a time. -/
def searchSuffixes {α : Type} (f : List Char → Option α) : List Char → Option α
  | [] => f []
  | c :: rest =>
      match f (c :: rest) with
      | some r => some r
      | none => searchSuffixes f rest

/-- The matcher for `1s(0x[0-9a-fA-F]+:0x[0-9a-fA-F]+)` anchored at the
current position; greedy hex runs followed by the required literal. -/
def matchHexIdAt : List Char → Option String
  | '1' :: 's' :: '0' :: 'x' :: rest =>
      let r1 := rest.takeWhile isHexChar
      let rest1 := rest.dropWhile isHexChar
      if r1.isEmpty then none else
      match rest1 with
      | ':' :: '0' :: 'x' :: rest2 =>
          let r2 := rest2.takeWhile isHexChar
          if r2.isEmpty then none
          else some (String.mk ('0' :: 'x' :: r1 ++ ':' :: '0' :: 'x' :: r2))
      | _ => none
  | _ => none

/-- Model of `extract_place_id`: the hex Place ID matched anywhere in the URL. -/
def extract_place_id (url : String) : Option String :=
  searchSuffixes matchHexIdAt url.data

/-- The matcher for `/search/([-\d.]+),([-\d.]+)` anchored at the current
position, returning the two matched texts. -/
def matchCoordsAt : List Char → Option (String × String)
  | '/' :: 's' :: 'e' :: 'a' :: 'r' :: 'c' :: 'h' :: '/' :: rest =>
      let r1 := rest.takeWhile isCoordChar
      let rest1 := rest.dropWhile isCoordChar
      if r1.isEmpty then none else
      match rest1 with
      | ',' :: rest2 =>
          let r2 := rest2.takeWhile isCoordChar
          if r2.isEmpty then none else some (String.mk r1, String.mk r2)
      | _ => none
  | _ => none

def digitsVal (cs : List Char) : Nat :=
  cs.foldl (fun n c => 10 * n + (c.toNat - '0'.toNat)) 0

/-- A parsed decimal floating literal, kept exactly: the sign, the integer
part, and the fraction digits in order.  This carries precisely the
information `float(...)` retains of the strings the coordinate regex can
produce, in a form the `:.6f` formatting consumes directly. -/
structure DecFloat where
  neg : Bool
  ip : Nat
  fracDigits : List Nat
deriving DecidableEq, Repr

/-- Model of Python `float(...)` restricted to the alphabet `[-\d.]` that the
coordinate regex can produce: an optional sign, then either digits with an
optional fraction or a bare fraction; anything else raises `ValueError`
(here: `none`). -/
def parseUnsignedDecimal (cs : List Char) : Option DecFloat :=
  let intPart := cs.takeWhile Char.isDigit
  let rest := cs.dropWhile Char.isDigit
  match rest with
  | [] =>
      if intPart.isEmpty then none
      else some (DecFloat.mk false (digitsVal intPart) [])
  | '.' :: frac =>
      if frac.all Char.isDigit && !(intPart.isEmpty && frac.isEmpty) then
        some (DecFloat.mk false (digitsVal intPart)
          (frac.map (fun c => c.toNat - '0'.toNat)))
      else none
  | _ => none

def parsePyFloat (s : String) : Option DecFloat :=
  match s.data with
  | '-' :: rest => (parseUnsignedDecimal rest).map (fun q => { q with neg := true })
  | cs => parseUnsignedDecimal cs

/-- Model of `extract_coordinates_from_url`: the first `/search/lat,lon`
match whose two components both parse as floats; a parse failure yields
`none` without trying later matches, as the `except ValueError` does. -/
def extract_coordinates_from_url (url : String) : Option (DecFloat × DecFloat) :=
  match searchSuffixes matchCoordsAt url.data with
  | none => none
  | some (s1, s2) =>
      match parsePyFloat s1, parsePyFloat s2 with
      | some lat, some lon => some (lat, lon)
      | _, _ => none

def hexVal (c : Char) : Nat :=
  if c.isDigit then c.toNat - '0'.toNat
  else if 'a' ≤ c ∧ c ≤ 'f' then c.toNat - 'a'.toNat + 10
  else c.toNat - 'A'.toNat + 10

/-- Model of `urllib.parse.unquote` at the byte level: each valid `%HH`
escape becomes the character with that code, an invalid escape is left
alone. -/
def percentDecode : List Char → List Char
  | '%' :: h1 :: h2 :: rest =>
      if isHexChar h1 && isHexChar h2 then
        Char.ofNat (16 * hexVal h1 + hexVal h2) :: percentDecode rest
      else '%' :: percentDecode (h1 :: h2 :: rest)
  | c :: rest => c :: percentDecode rest
  | [] => []

/-- The matcher for `/place/([^/]+)/` anchored at the current position. -/
def matchPlaceAt : List Char → Option String
  | '/' :: 'p' :: 'l' :: 'a' :: 'c' :: 'e' :: '/' :: rest =>
      let seg := rest.takeWhile (fun c => c != '/')
      let rest1 := rest.dropWhile (fun c => c != '/')
      if seg.isEmpty then none else
      match rest1 with
      | '/' :: _ => some (String.mk seg)
      | _ => none
  | _ => none

/-- Model of `extract_place_name`: the stripped title when truthy, else the
first `/place/` segment with `+` replaced by a space and then
percent-decoded, else the empty string. -/
def extract_place_name (title url : String) : String :=
  if title != "" && pyStrip title != "" then pyStrip title
  else
    match searchSuffixes matchPlaceAt url.data with
    | some seg =>
        String.mk (percentDecode (seg.data.map (fun c => if c = '+' then ' ' else c)))
    | none => ""

/-! The `:.6f` coordinate formatting and the coordinate cache key. -/

def natPad6 (n : Nat) : String :=
  let s := toString n
  String.mk (List.replicate (6 - s.length) '0') ++ s

/-- Model of Python `f'{x:.6f}'`: sign, integer part, and the fraction
rounded half-to-even at six decimal places, zero-padded. -/
def format6 (q : DecFloat) : String :=
  let sign := if q.neg then "-" else ""
  let frac6 := (q.fracDigits ++ List.replicate 6 0).take 6
  let rem := q.fracDigits.drop 6
  let base := q.ip * 1000000 + frac6.foldl (fun n d => 10 * n + d) 0
  let roundUp :=
    match rem with
    | [] => false
    | d :: ds =>
        if 5 < d then true
        else if d < 5 then false
        else if ds.any (fun x => x != 0) then true
        else base % 2 = 1
  let m := if roundUp then base + 1 else base
  sign ++ toString (m / 1000000) ++ "." ++ natPad6 (m % 1000000)

/-- The shared-cache key for a coordinate pair, `f'{lat:.6f},{lon:.6f}'`. -/
def coordCacheKey (lat lon : DecFloat) : String :=
  format6 lat ++ "," ++ format6 lon

/-- The shared-cache key for a hex Place ID, `f'hex:{hex_place_id}'`. -/
def hexCacheKey (hexPlaceId : String) : String :=
  "hex:" ++ hexPlaceId

/-! Conversion of a hex Place ID to a Customer ID. -/

def splitOnColon : List Char → List (List Char)
  | [] => [[]]
  | c :: rest =>
      let r := splitOnColon rest
      if c = ':' then [] :: r
      else
        match r with
        | g :: gs => (c :: g) :: gs
        | [] => [[c]]

def hexDigitsVal (cs : List Char) : Nat :=
  cs.foldl (fun n c => 16 * n + hexVal c) 0

/-- Model of Python `int(s, 16)` for the sign-free, whitespace-free strings
that a split hex Place ID can contain: an optional `0x`/`0X` prefix and a
non-empty run of hex digits, else `ValueError` (here: `none`). -/
def parsePyIntHex (s : String) : Option Nat :=
  let cs :=
    match s.data with
    | '0' :: 'x' :: rest => rest
    | '0' :: 'X' :: rest => rest
    | other => other
  if !cs.isEmpty && cs.all isHexChar then some (hexDigitsVal cs) else none

/-- Model of `hex_to_cid`: the part after the first colon read as a base-16
integer and rendered in base 10; `none` when there is no colon or the
conversion raises. -/
def hex_to_cid (hex_place_id : String) : Option String :=
  if hex_place_id.data.contains ':' then
    match splitOnColon hex_place_id.data with
    | _ :: second :: _ => (parsePyIntHex (String.mk second)).map toString
    | _ => none
  else none

/-! The geocoding collaborator, modelled as an oracle mapping each request
to its observable outcome. -/

/-- One address component of a geocoding result: its `types` list and its
optional `long_name` (absent when the key is missing). -/
structure AddrComponent where
  types : List String
  longName : Option String
deriving DecidableEq, Repr

/-- Outcome of one outbound HTTP call: a transport error
(`requests.RequestException`), a response whose status is not `OK` or that
lacks results, or an OK response carrying the first result's address
components. -/
inductive ApiOutcome where
  | transportError
  | notOk
  | ok (components : List AddrComponent)
deriving DecidableEq, Repr

/-- The external world: outcomes of reverse geocoding by coordinates, place
details by Customer ID, and forward geocoding by address. -/
structure Oracle where
  geocodeCoord : DecFloat → DecFloat → ApiOutcome
  placeDetails : String → ApiOutcome
  geocodeAddr : String → ApiOutcome

/-- Model of the component scan shared by all three strategies: walk
`address_components` in order, a component typed `country` overwrites the
country with its `long_name`, else one typed `administrative_area_level_1`
overwrites the state. -/
def extractCountryState (comps : List AddrComponent) : Option String × Option String :=
  comps.foldl
    (fun cs comp =>
      if comp.types.contains "country" then (comp.longName, cs.2)
      else if comp.types.contains "administrative_area_level_1" then (cs.1, comp.longName)
      else cs)
    (none, none)

/-- A JSON value as the caches use them: `null`, an integer (the schema
version tag), a bare string (the version-1 entry format), or a
`{country, state}` record with both fields explicitly present and
nullable (the current entry format). -/
inductive JVal where
  | jNull
  | jInt (n : ℤ)
  | jStr (s : String)
  | jRec (country state : Option String)
deriving DecidableEq, Repr

/-- A JSON object: a Python dict of JSON values. -/
abbrev JObj : Type := List (String × JVal)

/-- An in-memory cache namespace is the loaded JSON object itself. -/
abbrev Cache : Type := JObj

/-- Model of `cached.get('country')` on the record values the pipeline
reads and writes. -/
def jvalCountry : JVal → Option String
  | .jRec c _ => c
  | _ => none

/-- Model of `cached.get('state')` on the record values the pipeline
reads and writes. -/
def jvalState : JVal → Option String
  | .jRec _ s => s
  | _ => none

/-- Observable cache and network events of one strategy call, used to state
which lookups and outbound calls a run performs. -/
inductive Ev where
  | coordCacheLookup (key : String)
  | coordCall (lat lon : DecFloat)
  | hexCacheLookup (key : String)
  | hexCall (cid : String)
  | nameCacheLookup (key : String)
  | nameCall (address : String)
deriving DecidableEq, Repr

/-- Result of one strategy call: the returned `(country, state)` pair, the
cache after the call, and the events the call performed. -/
structure StratOut where
  country : Option String
  state : Option String
  cache : Cache
  events : List Ev
deriving Repr

/-- Model of `get_location_info_from_coordinates`: consult the shared cache
under the 6-decimal key; on a miss call the geocoder, scan the components
on an OK response, and cache the outcome — an explicit null record on a
non-OK status or a transport error. -/
def get_location_info_from_coordinates (lat lon : DecFloat) (api : Oracle) (cache : Cache) :
    StratOut :=
  let key := coordCacheKey lat lon
  match dget cache key with
  | some cached => ⟨jvalCountry cached, jvalState cached, cache, [.coordCacheLookup key]⟩
  | none =>
      match api.geocodeCoord lat lon with
      | .ok comps =>
          let (country, state) := extractCountryState comps
          ⟨country, state, dset cache key (.jRec country state),
            [.coordCacheLookup key, .coordCall lat lon]⟩
      | _ =>
          ⟨none, none, dset cache key (.jRec none none),
            [.coordCacheLookup key, .coordCall lat lon]⟩

/-- Model of `get_location_info_from_hex_place_id`: an empty id returns
immediately; otherwise consult the shared cache under the `hex:` key; on a
miss convert to a Customer ID, caching a null record when the conversion
fails, else call place details and cache the outcome as the coordinate
strategy does. -/
def get_location_info_from_hex_place_id (hexPlaceId : String) (api : Oracle)
    (cache : Cache) : StratOut :=
  if hexPlaceId = "" then ⟨none, none, cache, []⟩
  else
    let key := hexCacheKey hexPlaceId
    match dget cache key with
    | some cached => ⟨jvalCountry cached, jvalState cached, cache, [.hexCacheLookup key]⟩
    | none =>
        match hex_to_cid hexPlaceId with
        | none =>
            ⟨none, none, dset cache key (.jRec none none), [.hexCacheLookup key]⟩
        | some cid =>
            match api.placeDetails cid with
            | .ok comps =>
                let (country, state) := extractCountryState comps
                ⟨country, state, dset cache key (.jRec country state),
                  [.hexCacheLookup key, .hexCall cid]⟩
            | _ =>
                ⟨none, none, dset cache key (.jRec none none),
                  [.hexCacheLookup key, .hexCall cid]⟩

/-- Model of `get_location_info_from_place_name`: an empty name returns
immediately; otherwise consult the per-source cache under the name itself;
on a miss forward-geocode the name and cache the outcome as the coordinate
strategy does. -/
def get_location_info_from_place_name (placeName : String) (api : Oracle)
    (cache : Cache) : StratOut :=
  if placeName = "" then ⟨none, none, cache, []⟩
  else
    match dget cache placeName with
    | some cached => ⟨jvalCountry cached, jvalState cached, cache, [.nameCacheLookup placeName]⟩
    | none =>
        match api.geocodeAddr placeName with
        | .ok comps =>
            let (country, state) := extractCountryState comps
            ⟨country, state, dset cache placeName (.jRec country state),
              [.nameCacheLookup placeName, .nameCall placeName]⟩
        | _ =>
            ⟨none, none, dset cache placeName (.jRec none none),
              [.nameCacheLookup placeName, .nameCall placeName]⟩

/-! Cache schema versioning and migration. -/

def CACHE_SCHEMA_VERSION : ℤ := 3

/-- Model of `cache_data.get('schema_version', 1)` on well-formed files,
whose version tag is an integer when present. -/
def getSchemaVersion (d : JObj) : ℤ :=
  match dget d "schema_version" with
  | some (.jInt n) => n
  | _ => 1

/-- The dict comprehension dropping the reserved `schema_version` key. -/
def stripSchema (d : JObj) : JObj :=
  d.filter (fun kv => kv.1 != "schema_version")

/-- Per-entry action of the version-1-to-2 migration: a bare string value
is dropped when it is the literal `United States` and otherwise becomes a
`{country, state: null}` record, a dict value is kept as is, a `None`
value becomes an explicit null record, and a value of any other shape
falls through every `isinstance` branch and is silently dropped. -/
def migrateV1Val : JVal → Option JVal
  | .jStr s => if s = "United States" then none else some (.jRec (some s) none)
  | .jRec c st => some (.jRec c st)
  | .jNull => some (.jRec none none)
  | .jInt _ => none

/-- Model of `migrate_cache_once`: return the entries unchanged (minus the
version tag) when the stored version is already current, else migrate
every entry per `migrateV1Val`. -/
def migrate_cache_once (d : JObj) : JObj :=
  if getSchemaVersion d ≥ CACHE_SCHEMA_VERSION then stripSchema d
  else (stripSchema d).filterMap (fun kv => (migrateV1Val kv.2).map (fun v => (kv.1, v)))

/-- Consume `-?\d+\.\d+` from the front of the characters, returning the
remainder on success. -/
def matchSignedDecimal (cs : List Char) : Option (List Char) :=
  let cs1 := match cs with
             | '-' :: rest => rest
             | other => other
  let d1 := cs1.takeWhile Char.isDigit
  let rest1 := cs1.dropWhile Char.isDigit
  if d1.isEmpty then none else
  match rest1 with
  | '.' :: rest2 =>
      let d2 := rest2.takeWhile Char.isDigit
      if d2.isEmpty then none else some (rest2.dropWhile Char.isDigit)
  | _ => none

/-- The anchored pattern `^-?\d+\.\d+,-?\d+\.\d+$` routing legacy keys to
the shared cache. -/
def isCoordKeyShape (k : String) : Bool :=
  match matchSignedDecimal k.data with
  | some (',' :: rest) =>
      match matchSignedDecimal rest with
      | some [] => true
      | _ => false
  | _ => false

/-- Legacy keys routed to the shared cache: `hex:`-prefixed or
coordinate-shaped. -/
def isSharedKey (k : String) : Bool :=
  k.startsWith "hex:" || isCoordKeyShape k

/-- Model of `migrate_cache_to_v3`: first apply the version-1-to-2
migration when the stored version is below 2, then split the entries into
the shared and the per-source cache by key shape. -/
def migrate_cache_to_v3 (old : JObj) : JObj × JObj :=
  let upgraded :=
    if getSchemaVersion old < 2 then
      ("schema_version", JVal.jInt 2) :: migrate_cache_once old
    else old
  let entries := stripSchema upgraded
  (entries.filter (fun kv => isSharedKey kv.1),
   entries.filter (fun kv => !isSharedKey kv.1))

/-! The filesystem, holding the parsed JSON cache files by path. -/

structure FS where
  files : List (String × JObj)
deriving DecidableEq, Repr

def fsRead (fs : FS) (path : String) : Option JObj :=
  dget fs.files path

def fsWrite (fs : FS) (path : String) (content : JObj) : FS :=
  ⟨dset fs.files path content⟩

/-- Model of `os.rename` for a present source: the source entry is
removed and the destination overwritten with its content. -/
def fsRename (fs : FS) (src dst : String) : FS :=
  match dget fs.files src with
  | none => fs
  | some content => ⟨dset (fs.files.filter (fun kv => kv.1 != src)) dst content⟩

/-- Model of Python `str.replace` on character lists: replace each
non-overlapping occurrence of `pat`, left to right.  Fueled by the input
length so that the definition reduces definitionally. -/
def listReplaceAux (pat repl : List Char) : Nat → List Char → List Char
  | _, [] => []
  | 0, cs => cs
  | fuel + 1, c :: rest =>
      if !pat.isEmpty && pat.isPrefixOf (c :: rest) then
        repl ++ listReplaceAux pat repl fuel (rest.drop (pat.length - 1))
      else c :: listReplaceAux pat repl fuel rest

def strReplace (s pat repl : String) : String :=
  String.mk (listReplaceAux pat.data repl.data s.data.length s.data)

/-- The legacy monolithic cache path probed by `load_cache`:
`place_name_cache_file.replace('_place_names.json', '.json')`. -/
def old_cache_name (place_name_cache_file : String) : String :=
  strReplace place_name_cache_file "_place_names.json" ".json"

/-- One cache file as `save_cache` serializes it: a fresh dict holding the
version tag, then updated with the in-memory entries. -/
def cacheWithSchema (c : Cache) : JObj :=
  dupdate [("schema_version", JVal.jInt CACHE_SCHEMA_VERSION)] c

/-- Model of `save_cache`: write both namespaces, each under the version
tag. -/
def save_cache (shared place : Cache) (shared_cache_file place_name_cache_file : String)
    (fs : FS) : FS :=
  fsWrite (fsWrite fs shared_cache_file (cacheWithSchema shared))
    place_name_cache_file (cacheWithSchema place)

/-- Model of `load_cache`: when the legacy monolithic file exists (and is
not itself the per-source file), migrate it to the split format, merge the
migrated shared entries over the existing shared file, save both files and
rename the legacy file to a `.v2.bak` backup; otherwise read each split
file, dropping the version tag, with an absent file yielding an empty
namespace. -/
def load_cache (shared_cache_file place_name_cache_file : String) (fs : FS) :
    FS × Cache × Cache :=
  let old_cache_file := old_cache_name place_name_cache_file
  match fsRead fs old_cache_file,
        !old_cache_file.endsWith "_place_names.json" with
  | some old_cache_data, true =>
      let (shared_new, place_new) := migrate_cache_to_v3 old_cache_data
      let existing_shared :=
        match fsRead fs shared_cache_file with
        | some s => stripSchema s
        | none => []
      let shared := dupdate existing_shared shared_new
      let fs1 := save_cache shared place_new shared_cache_file place_name_cache_file fs
      let fs2 := fsRename fs1 old_cache_file (old_cache_file ++ ".v2.bak")
      (fs2, shared, place_new)
  | _, _ =>
      let shared :=
        match fsRead fs shared_cache_file with
        | some s => stripSchema s
        | none => []
      let place :=
        match fsRead fs place_name_cache_file with
        | some p => stripSchema p
        | none => []
      (fs, shared, place)

/-! The batch driver of `main`: per-row resolution, aggregation, the
processing loop with operator interruption, and the finalize step. -/

/-- Python truthiness of a `str | None` value: `None` and the empty string
are falsy. -/
def truthyStr : Option String → Bool
  | none => false
  | some s => s != ""

/-- One input CSV row: the `Titel` and `URL` columns. -/
structure Row where
  title : String
  url : String
deriving DecidableEq, Repr

/-- Result of resolving one row: the final `(country, state)` pair, both
cache namespaces after the row, and the events performed. -/
structure RowOut where
  country : Option String
  state : Option String
  shared : Cache
  place : Cache
  events : List Ev
deriving Repr

/-- Model of the per-row strategy cascade in `main`: coordinates first;
the hex Place ID only when the country so far is falsy; the place name
only when the country is still falsy, the name is non-empty and the URL
has no hex-ID-shaped substring (the conflict check re-runs the same
pattern `extract_place_id` matches). -/
def resolveRow (api : Oracle) (title url : String) (shared place : Cache) : RowOut :=
  let st1 :=
    match extract_coordinates_from_url url with
    | some (lat, lon) =>
        let o := get_location_info_from_coordinates lat lon api shared
        RowOut.mk o.country o.state o.cache place o.events
    | none => RowOut.mk none none shared place []
  let st2 :=
    if truthyStr st1.country then st1
    else
      match extract_place_id url with
      | some hexId =>
          let o := get_location_info_from_hex_place_id hexId api st1.shared
          { st1 with country := o.country, state := o.state, shared := o.cache,
                     events := st1.events ++ o.events }
      | none => st1
  if truthyStr st2.country then st2
  else
    let placeName := extract_place_name title url
    if placeName != "" then
      if (extract_place_id url).isSome then st2
      else
        let o := get_location_info_from_place_name placeName api st2.place
        { st2 with country := o.country, state := o.state, place := o.cache,
                   events := st2.events ++ o.events }
    else st2

/-- Per-country aggregate: the `{'states': set(...), 'count': n}` record,
the set kept as a duplicate-free list in insertion order. -/
structure CountryAgg where
  states : List String
  count : Nat
deriving DecidableEq, Repr

/-- The driver state threaded through the processing loop. -/
structure RunState where
  shared : Cache
  place : Cache
  countryStatesMap : List (String × CountryAgg)
  failedLookups : List (String × String)
  events : List Ev
deriving Repr

/-- Model of one loop iteration of `main`: skip rows with an empty URL,
resolve the rest, then either count the country (adding a truthy state to
its set) or append the row to the failed-lookup list. -/
def stepRow (api : Oracle) (st : RunState) (row : Row) : RunState :=
  if row.url = "" then st
  else
    let r := resolveRow api row.title row.url st.shared st.place
    if truthyStr r.country then
      let cname := r.country.getD ""
      let cur :=
        match dget st.countryStatesMap cname with
        | some agg => agg
        | none => CountryAgg.mk [] 0
      let counted := { cur with count := cur.count + 1 }
      let agg :=
        if truthyStr r.state then
          let sname := r.state.getD ""
          if counted.states.contains sname then counted
          else { counted with states := counted.states ++ [sname] }
        else counted
      { shared := r.shared, place := r.place,
        countryStatesMap := dset st.countryStatesMap cname agg,
        failedLookups := st.failedLookups,
        events := st.events ++ r.events }
    else
      { shared := r.shared, place := r.place,
        countryStatesMap := st.countryStatesMap,
        failedLookups := st.failedLookups ++ [(row.title, row.url)],
        events := st.events ++ r.events }

/-- The processing loop: `interruptAfter = some n` models a
`KeyboardInterrupt` raised at the row boundary after `n` completed rows,
`none` a run that completes normally. -/
def runLoop (api : Oracle) : Option Nat → List Row → RunState → RunState
  | some 0, _, st => st
  | some (n + 1), row :: rest, st => runLoop api (some n) rest (stepRow api st row)
  | none, row :: rest, st => runLoop api none rest (stepRow api st row)
  | _, [], st => st

/-! Serialization of the aggregate and the failed-lookup report. -/

/-- Lexicographic comparison by code point, as Python compares strings. -/
def charListLe : List Char → List Char → Bool
  | [], _ => true
  | _ :: _, [] => false
  | a :: as, b :: bs => if a = b then charListLe as bs else decide (a < b)

def strLe (a b : String) : Bool := charListLe a.data b.data

def insertSorted (s : String) : List String → List String
  | [] => [s]
  | t :: rest => if strLe s t then s :: t :: rest else t :: insertSorted s rest

/-- Model of Python `sorted` on strings. -/
def sortStrings (l : List String) : List String := l.foldr insertSorted []

/-- One element of the aggregated countries JSON. -/
structure CountryOut where
  country : String
  count : Nat
  states : List String
deriving DecidableEq, Repr

/-- Model of `save_countries_json`: countries in sorted order, each with
its count and its states sorted. -/
def save_countries_json (m : List (String × CountryAgg)) : List CountryOut :=
  (sortStrings (dkeys m)).filterMap (fun c =>
    (dget m c).map (fun agg => CountryOut.mk c agg.count (sortStrings agg.states)))

/-- The failed-lookup report content (the wall-clock timestamp and the
constant per-row reason string are not modelled). -/
structure FailedReport where
  total_failed : Nat
  failed_locations : List (String × String)
deriving DecidableEq, Repr

def save_failed_lookups (failed : List (String × String)) : FailedReport :=
  FailedReport.mk failed.length failed

/-- Everything a run leaves behind: the filesystem with both cache files
written, the final driver state, the failed-lookup report (written only
when the list is non-empty), and the aggregated countries JSON. -/
structure RunOut where
  fs : FS
  state : RunState
  failedReport : Option FailedReport
  countries : List CountryOut
deriving Repr

/-- The finalize step of `main`: runs on the normal path and on the
`KeyboardInterrupt` path alike (the `finally` block plus the code after
it). -/
def finalize (shared_cache_file place_name_cache_file : String) (st : RunState)
    (fs : FS) : RunOut :=
  let fs1 := save_cache st.shared st.place shared_cache_file place_name_cache_file fs
  let report :=
    if st.failedLookups.isEmpty then none
    else some (save_failed_lookups st.failedLookups)
  RunOut.mk fs1 st report (save_countries_json st.countryStatesMap)

/-- Model of `main` after argument and credential checks: load the split
caches, process the rows (possibly interrupted), and always finalize. -/
def runMain (api : Oracle) (rows : List Row) (interruptAfter : Option Nat)
    (shared_cache_file place_name_cache_file : String) (fs : FS) : RunOut :=
  let loaded := load_cache shared_cache_file place_name_cache_file fs
  let st0 : RunState := RunState.mk loaded.2.1 loaded.2.2 [] [] []
  let st := runLoop api interruptAfter rows st0
  finalize shared_cache_file place_name_cache_file st loaded.1

/-! Event classifiers. -/

def Ev.isCoordEv : Ev → Bool
  | .coordCacheLookup _ => true
  | .coordCall _ _ => true
  | _ => false

def Ev.isHexEv : Ev → Bool
  | .hexCacheLookup _ => true
  | .hexCall _ => true
  | _ => false

def Ev.isNameEv : Ev → Bool
  | .nameCacheLookup _ => true
  | .nameCall _ => true
  | _ => false

/-- Reading one split cache file as the non-migrating branch of
`load_cache` does: stripped content, or empty when absent. -/
def readStripped (fs : FS) (path : String) : Cache :=
  match fsRead fs path with
  | some s => stripSchema s
  | none => []

/-! Concrete worlds used to exercise the theorems on closed inputs. -/

/-- An oracle whose every call fails with a non-OK status. -/
def apiNone : Oracle :=
  { geocodeCoord := fun _ _ => .notOk,
    placeDetails := fun _ => .notOk,
    geocodeAddr := fun _ => .notOk }

/-- An oracle returning a response that carries a state component but no
country component. -/
def apiAdminOnly : Oracle :=
  { geocodeCoord := fun _ _ =>
      .ok [{ types := ["administrative_area_level_1"], longName := some "California" }],
    placeDetails := fun _ => .notOk,
    geocodeAddr := fun _ => .notOk }

/-- An oracle resolving the address `schema_version` (and only it) to
Germany. -/
def apiSchemaName : Oracle :=
  { geocodeCoord := fun _ _ => .notOk,
    placeDetails := fun _ => .notOk,
    geocodeAddr := fun a =>
      if a = "schema_version" then .ok [{ types := ["country"], longName := some "Germany" }]
      else .notOk }

/-- An oracle resolving every coordinate pair to Germany. -/
def apiCoordGermany : Oracle :=
  { geocodeCoord := fun _ _ => .ok [{ types := ["country"], longName := some "Germany" }],
    placeDetails := fun _ => .notOk,
    geocodeAddr := fun _ => .notOk }

/-- The shared namespace as the driver holds it after the coordinate
strategy of one row: unchanged when the URL has no coordinates. -/
def sharedAfterCoords (api : Oracle) (url : String) (shared : Cache) : Cache :=
  match extract_coordinates_from_url url with
  | some (lat, lon) => (get_location_info_from_coordinates lat lon api shared).cache
  | none => shared

/-- A provider outcome that never yields a state without a country: if it
is an OK payload, the component scan's state being present forces its
country to be present. -/
def goodOutcome (o : ApiOutcome) : Prop :=
  ∀ comps, o = .ok comps →
    ((extractCountryState comps).2.isSome → (extractCountryState comps).1.isSome)

/-- An oracle all of whose outcomes are good in the sense of
`goodOutcome`. -/
def goodOracle (api : Oracle) : Prop :=
  (∀ lat lon, goodOutcome (api.geocodeCoord lat lon)) ∧
  (∀ cid, goodOutcome (api.placeDetails cid)) ∧
  (∀ a, goodOutcome (api.geocodeAddr a))

/-- The record invariant: no cached entry carries a state without a
country. -/
def cacheStatesHaveCountry (c : Cache) : Prop :=
  ∀ k co st, dget c k = some (.jRec co st) → st.isSome → co.isSome

/-! Lemmas about the dict operations. -/

theorem dget_dset_self {α : Type} (d : List (String × α)) (k : String) (v : α) :
    dget (dset d k v) k = some v := by
  induction d with
  | nil => simp [dget, dset]
  | cons kv rest ih =>
      obtain ⟨k', v'⟩ := kv
      by_cases h : k' = k <;> simp [dget, dset, h, ih]

theorem dget_dset_ne {α : Type} (d : List (String × α)) (k k' : String) (v : α)
    (h : k' ≠ k) : dget (dset d k v) k' = dget d k' := by
  induction d with
  | nil => simp [dget, dset, Ne.symm h]
  | cons kv rest ih =>
      obtain ⟨k1, v1⟩ := kv
      by_cases h1 : k1 = k
      · subst h1
        simp [dget, dset, Ne.symm h]
      · by_cases h2 : k1 = k' <;> simp [dget, dset, h, h1, h2, ih, Ne.symm h]

theorem dget_eq_none_iff {α : Type} (d : List (String × α)) (k : String) :
    dget d k = none ↔ k ∉ dkeys d := by
  induction d with
  | nil => simp [dget, dkeys]
  | cons kv rest ih =>
      obtain ⟨k1, v1⟩ := kv
      by_cases h : k1 = k
      · subst h
        simp [dget, dkeys]
      · simp [dget, dkeys, h, ih, Ne.symm h]

theorem dget_append_left {α : Type} (a b : List (String × α)) (k : String) (v : α)
    (h : dget a k = some v) : dget (a ++ b) k = some v := by
  induction a with
  | nil => simp [dget] at h
  | cons kv rest ih =>
      obtain ⟨k1, v1⟩ := kv
      by_cases h1 : k1 = k
      · simp [dget, h1] at h ⊢
        exact h
      · simp [dget, h1] at h ⊢
        exact ih h

theorem dget_append_right {α : Type} (a b : List (String × α)) (k : String)
    (h : dget a k = none) : dget (a ++ b) k = dget b k := by
  induction a with
  | nil => simp
  | cons kv rest ih =>
      obtain ⟨k1, v1⟩ := kv
      by_cases h1 : k1 = k
      · simp [dget, h1] at h
      · simp [dget, h1] at h ⊢
        exact ih h

theorem dset_eq_append {α : Type} (d : List (String × α)) (k : String) (v : α)
    (h : dget d k = none) : dset d k v = d ++ [(k, v)] := by
  induction d with
  | nil => simp [dset]
  | cons kv rest ih =>
      obtain ⟨k1, v1⟩ := kv
      by_cases h1 : k1 = k
      · simp [dget, h1] at h
      · simp [dget, h1] at h
        simp [dset, h1, ih h]

theorem dkeys_dset {α : Type} (d : List (String × α)) (k : String) (v : α) :
    dkeys (dset d k v) = if k ∈ dkeys d then dkeys d else dkeys d ++ [k] := by
  induction d with
  | nil => simp [dset, dkeys]
  | cons kv rest ih =>
      obtain ⟨k1, v1⟩ := kv
      by_cases h1 : k1 = k
      · subst h1
        simp [dset, dkeys]
      · by_cases h2 : k ∈ List.map Prod.fst rest <;>
          simp [dset, h1, dkeys, Ne.symm h1, h2] at ih ⊢ <;> simp [ih]

theorem nodup_dkeys_dset {α : Type} (d : List (String × α)) (k : String) (v : α)
    (h : (dkeys d).Nodup) : (dkeys (dset d k v)).Nodup := by
  rw [dkeys_dset]
  by_cases hn : k ∈ dkeys d
  · rw [if_pos hn]
    exact h
  · rw [if_neg hn]
    simp [List.nodup_append, h, hn]

theorem dget_filter_none {α : Type} (d : List (String × α)) (k : String)
    (p : String × α → Bool) (h : dget d k = none) : dget (d.filter p) k = none := by
  rw [dget_eq_none_iff] at h ⊢
  intro hmem
  apply h
  simp only [dkeys, List.mem_map] at hmem ⊢
  obtain ⟨kv, hkv, hk⟩ := hmem
  exact ⟨kv, (List.mem_filter.mp hkv).1, hk⟩

theorem filter_key_ne_eq_self {α : Type} (d : List (String × α)) (k : String)
    (h : dget d k = none) : d.filter (fun kv => kv.1 != k) = d := by
  induction d with
  | nil => simp
  | cons kv rest ih =>
      obtain ⟨k1, v1⟩ := kv
      by_cases h1 : k1 = k
      · simp [dget, h1] at h
      · simp [dget, h1] at h
        simp [List.filter_cons, bne_iff_ne, h1, ih h]

theorem mem_dkeys_head {α : Type} (k : String) (v : α) (rest : List (String × α)) :
    k ∈ dkeys ((k, v) :: rest) := by
  simp [dkeys]

theorem mem_dkeys_tail {α : Type} (k1 : String) (v1 : α) {rest : List (String × α)}
    {k : String} (h : k ∈ dkeys rest) : k ∈ dkeys ((k1, v1) :: rest) := by
  simp only [dkeys, List.map_cons, List.mem_cons]
  exact Or.inr h

theorem not_mem_dkeys_cons {α : Type} {k k1 : String} {v1 : α}
    {rest : List (String × α)} (h : k ∉ dkeys ((k1, v1) :: rest)) :
    k ≠ k1 ∧ k ∉ dkeys rest := by
  constructor
  · intro hk
    exact h (by simp [dkeys, hk])
  · intro hk
    exact h (mem_dkeys_tail k1 v1 hk)

theorem dget_dupdate_not_mem {α : Type} (upds base : List (String × α)) (k : String)
    (h : k ∉ dkeys upds) : dget (dupdate base upds) k = dget base k := by
  induction upds generalizing base with
  | nil => simp [dupdate]
  | cons kv rest ih =>
      obtain ⟨k1, v1⟩ := kv
      obtain ⟨h1, h2⟩ := not_mem_dkeys_cons h
      rw [dupdate, ih _ h2, dget_dset_ne _ _ _ _ h1]

theorem dupdate_eq_append {α : Type} (upds base : List (String × α))
    (hd : ∀ k ∈ dkeys upds, dget base k = none) (hnd : (dkeys upds).Nodup) :
    dupdate base upds = base ++ upds := by
  induction upds generalizing base with
  | nil => simp [dupdate]
  | cons kv rest ih =>
      obtain ⟨k1, v1⟩ := kv
      have hnd' := hnd
      rw [show dkeys ((k1, v1) :: rest) = k1 :: dkeys rest from rfl,
        List.nodup_cons] at hnd'
      rw [dupdate, dset_eq_append _ _ _ (hd k1 (mem_dkeys_head k1 v1 rest)), ih]
      · simp
      · intro k hk
        rw [dget_append_right _ _ _ (hd k (mem_dkeys_tail k1 v1 hk))]
        have : k ≠ k1 := fun hkk => hnd'.1 (hkk ▸ hk)
        simp [dget, Ne.symm this]
      · exact hnd'.2

theorem nodup_dkeys_dupdate {α : Type} (upds base : List (String × α))
    (h : (dkeys base).Nodup) : (dkeys (dupdate base upds)).Nodup := by
  induction upds generalizing base with
  | nil => simpa [dupdate] using h
  | cons kv rest ih => exact ih _ (nodup_dkeys_dset _ _ _ h)

theorem dget_stripSchema_self (d : JObj) :
    dget (stripSchema d) "schema_version" = none := by
  rw [dget_eq_none_iff]
  intro hmem
  simp only [dkeys, List.mem_map] at hmem
  obtain ⟨kv, hkv, hk⟩ := hmem
  have := (List.mem_filter.mp hkv).2
  simp [hk] at this

theorem dget_stripSchema_ne (d : JObj) (k : String) (h : k ≠ "schema_version") :
    dget (stripSchema d) k = dget d k := by
  induction d with
  | nil => simp [stripSchema, dget]
  | cons kv rest ih =>
      obtain ⟨k1, v1⟩ := kv
      by_cases h1 : k1 = "schema_version"
      · subst h1
        simp only [stripSchema, List.filter_cons] at ih ⊢
        simp [dget, Ne.symm h, ih]
      · simp only [stripSchema, List.filter_cons] at ih ⊢
        by_cases h2 : k1 = k <;> simp [dget, bne_iff_ne, h, h1, h2, ih]

theorem nodup_dkeys_filter {α : Type} (d : List (String × α)) (p : String × α → Bool)
    (h : (dkeys d).Nodup) : (dkeys (d.filter p)).Nodup :=
  ((List.filter_sublist d).map Prod.fst).nodup h

theorem nodup_dkeys_stripSchema (d : JObj) (h : (dkeys d).Nodup) :
    (dkeys (stripSchema d)).Nodup :=
  nodup_dkeys_filter d _ h

/-! Lemmas about the version-1 entry migration. -/

theorem dget_filterMap_migrate (d : JObj) (hnd : (dkeys d).Nodup) (k : String) :
    dget (d.filterMap (fun kv => (migrateV1Val kv.2).map (fun v => (kv.1, v)))) k
      = (dget d k).bind migrateV1Val := by
  induction d with
  | nil => simp [dget]
  | cons kv rest ih =>
      obtain ⟨k1, v1⟩ := kv
      simp [dkeys] at hnd
      by_cases h1 : k1 = k
      · subst h1
        cases hm : migrateV1Val v1 with
        | none =>
            have hn2 : dget (rest.filterMap
                (fun kv => (migrateV1Val kv.2).map (fun v => (kv.1, v)))) k1 = none := by
              rw [dget_eq_none_iff]
              intro hmem
              obtain ⟨⟨ka, va⟩, hin, hfst⟩ := List.mem_map.mp hmem
              obtain ⟨⟨kb, vb⟩, hmem2, hmap⟩ := List.mem_filterMap.mp hin
              cases hmb : migrateV1Val vb with
              | none =>
                  rw [hmb] at hmap
                  simp at hmap
              | some w =>
                  rw [hmb] at hmap
                  simp at hmap
                  have hkb : kb = k1 := hmap.1.trans hfst
                  exact hnd.1 vb (hkb ▸ hmem2)
            simp [List.filterMap_cons, hm, dget, hn2]
        | some w => simp [List.filterMap_cons, hm, dget]
      · cases hm : migrateV1Val v1 <;>
          simp [List.filterMap_cons, hm, dget, h1, ih hnd.2]

/-! The cache keys the strategies write never collide with the reserved
`schema_version` key. -/

theorem comma_mem_coordCacheKey (lat lon : DecFloat) :
    ',' ∈ (coordCacheKey lat lon).data := by
  have : (coordCacheKey lat lon).data
      = (format6 lat).data ++ (',' :: (format6 lon).data) := by
    simp [coordCacheKey, String.data_append]
  rw [this]
  simp

theorem coordCacheKey_ne_schema (lat lon : DecFloat) :
    coordCacheKey lat lon ≠ "schema_version" := by
  intro h
  have := comma_mem_coordCacheKey lat lon
  rw [h] at this
  simp at this

theorem hexCacheKey_ne_schema (hexId : String) :
    hexCacheKey hexId ≠ "schema_version" := by
  intro h
  have hd : (hexCacheKey hexId).data = 'h' :: 'e' :: 'x' :: ':' :: hexId.data := by
    simp [hexCacheKey, String.data_append]
  rw [h] at hd
  simp at hd

/-! Behaviour of the coordinate strategy, one lemma per aspect. -/

theorem coord_frame (lat lon : DecFloat) (api : Oracle) (cache : Cache) (k : String)
    (h : k ≠ coordCacheKey lat lon) :
    dget (get_location_info_from_coordinates lat lon api cache).cache k
      = dget cache k := by
  cases hg : dget cache (coordCacheKey lat lon) with
  | some cached => simp [get_location_info_from_coordinates, hg]
  | none =>
      cases ho : api.geocodeCoord lat lon with
      | ok comps =>
          rcases hcs : extractCountryState comps with ⟨c, s⟩
          simp [get_location_info_from_coordinates, hg, ho, hcs,
            dget_dset_ne _ _ _ _ h]
      | transportError =>
          simp [get_location_info_from_coordinates, hg, ho, dget_dset_ne _ _ _ _ h]
      | notOk =>
          simp [get_location_info_from_coordinates, hg, ho, dget_dset_ne _ _ _ _ h]

theorem coord_cases (lat lon : DecFloat) (api : Oracle) (cache : Cache) :
    (get_location_info_from_coordinates lat lon api cache).cache = cache ∨
    ∃ c s, (get_location_info_from_coordinates lat lon api cache).cache
      = dset cache (coordCacheKey lat lon) (.jRec c s) := by
  cases hg : dget cache (coordCacheKey lat lon) with
  | some cached => exact Or.inl (by simp [get_location_info_from_coordinates, hg])
  | none =>
      cases ho : api.geocodeCoord lat lon with
      | ok comps =>
          rcases hcs : extractCountryState comps with ⟨c, s⟩
          exact Or.inr ⟨c, s, by simp [get_location_info_from_coordinates, hg, ho, hcs]⟩
      | transportError =>
          exact Or.inr ⟨none, none, by simp [get_location_info_from_coordinates, hg, ho]⟩
      | notOk =>
          exact Or.inr ⟨none, none, by simp [get_location_info_from_coordinates, hg, ho]⟩

theorem coord_entry_present (lat lon : DecFloat) (api : Oracle) (cache : Cache)
    (h : dget cache (coordCacheKey lat lon) = none) :
    ∃ c s, dget (get_location_info_from_coordinates lat lon api cache).cache
      (coordCacheKey lat lon) = some (.jRec c s) := by
  cases ho : api.geocodeCoord lat lon with
  | ok comps =>
      rcases hcs : extractCountryState comps with ⟨c, s⟩
      exact ⟨c, s, by
        simp [get_location_info_from_coordinates, h, ho, hcs, dget_dset_self]⟩
  | transportError =>
      exact ⟨none, none, by
        simp [get_location_info_from_coordinates, h, ho, dget_dset_self]⟩
  | notOk =>
      exact ⟨none, none, by
        simp [get_location_info_from_coordinates, h, ho, dget_dset_self]⟩

theorem coord_events (lat lon : DecFloat) (api : Oracle) (cache : Cache) :
    ∀ e ∈ (get_location_info_from_coordinates lat lon api cache).events,
      Ev.isCoordEv e = true := by
  cases hg : dget cache (coordCacheKey lat lon) with
  | some cached => simp [get_location_info_from_coordinates, hg, Ev.isCoordEv]
  | none =>
      cases ho : api.geocodeCoord lat lon with
      | ok comps =>
          rcases hcs : extractCountryState comps with ⟨c, s⟩
          simp [get_location_info_from_coordinates, hg, ho, hcs, Ev.isCoordEv]
      | transportError =>
          simp [get_location_info_from_coordinates, hg, ho, Ev.isCoordEv]
      | notOk =>
          simp [get_location_info_from_coordinates, hg, ho, Ev.isCoordEv]

/-! Behaviour of the hex Place ID strategy. -/

theorem hex_frame (hexId : String) (api : Oracle) (cache : Cache) (k : String)
    (h : k ≠ hexCacheKey hexId) :
    dget (get_location_info_from_hex_place_id hexId api cache).cache k
      = dget cache k := by
  by_cases he : hexId = ""
  · simp [get_location_info_from_hex_place_id, he]
  · cases hg : dget cache (hexCacheKey hexId) with
    | some cached => simp [get_location_info_from_hex_place_id, he, hg]
    | none =>
        cases hc : hex_to_cid hexId with
        | none =>
            simp [get_location_info_from_hex_place_id, he, hg, hc,
              dget_dset_ne _ _ _ _ h]
        | some cid =>
            cases ho : api.placeDetails cid with
            | ok comps =>
                rcases hcs : extractCountryState comps with ⟨c, s⟩
                simp [get_location_info_from_hex_place_id, he, hg, hc, ho, hcs,
                  dget_dset_ne _ _ _ _ h]
            | transportError =>
                simp [get_location_info_from_hex_place_id, he, hg, hc, ho,
                  dget_dset_ne _ _ _ _ h]
            | notOk =>
                simp [get_location_info_from_hex_place_id, he, hg, hc, ho,
                  dget_dset_ne _ _ _ _ h]

theorem hex_cases (hexId : String) (api : Oracle) (cache : Cache) :
    (get_location_info_from_hex_place_id hexId api cache).cache = cache ∨
    ∃ c s, (get_location_info_from_hex_place_id hexId api cache).cache
      = dset cache (hexCacheKey hexId) (.jRec c s) := by
  by_cases he : hexId = ""
  · exact Or.inl (by simp [get_location_info_from_hex_place_id, he])
  · cases hg : dget cache (hexCacheKey hexId) with
    | some cached => exact Or.inl (by simp [get_location_info_from_hex_place_id, he, hg])
    | none =>
        cases hc : hex_to_cid hexId with
        | none =>
            exact Or.inr ⟨none, none, by
              simp [get_location_info_from_hex_place_id, he, hg, hc]⟩
        | some cid =>
            cases ho : api.placeDetails cid with
            | ok comps =>
                rcases hcs : extractCountryState comps with ⟨c, s⟩
                exact Or.inr ⟨c, s, by
                  simp [get_location_info_from_hex_place_id, he, hg, hc, ho, hcs]⟩
            | transportError =>
                exact Or.inr ⟨none, none, by
                  simp [get_location_info_from_hex_place_id, he, hg, hc, ho]⟩
            | notOk =>
                exact Or.inr ⟨none, none, by
                  simp [get_location_info_from_hex_place_id, he, hg, hc, ho]⟩

theorem hex_entry_present (hexId : String) (api : Oracle) (cache : Cache)
    (he : hexId ≠ "") (h : dget cache (hexCacheKey hexId) = none) :
    ∃ c s, dget (get_location_info_from_hex_place_id hexId api cache).cache
      (hexCacheKey hexId) = some (.jRec c s) := by
  cases hc : hex_to_cid hexId with
  | none =>
      exact ⟨none, none, by
        simp [get_location_info_from_hex_place_id, he, h, hc, dget_dset_self]⟩
  | some cid =>
      cases ho : api.placeDetails cid with
      | ok comps =>
          rcases hcs : extractCountryState comps with ⟨c, s⟩
          exact ⟨c, s, by
            simp [get_location_info_from_hex_place_id, he, h, hc, ho, hcs,
              dget_dset_self]⟩
      | transportError =>
          exact ⟨none, none, by
            simp [get_location_info_from_hex_place_id, he, h, hc, ho, dget_dset_self]⟩
      | notOk =>
          exact ⟨none, none, by
            simp [get_location_info_from_hex_place_id, he, h, hc, ho, dget_dset_self]⟩

theorem hex_events (hexId : String) (api : Oracle) (cache : Cache) :
    ∀ e ∈ (get_location_info_from_hex_place_id hexId api cache).events,
      Ev.isHexEv e = true := by
  by_cases he : hexId = ""
  · simp [get_location_info_from_hex_place_id, he]
  · cases hg : dget cache (hexCacheKey hexId) with
    | some cached => simp [get_location_info_from_hex_place_id, he, hg, Ev.isHexEv]
    | none =>
        cases hc : hex_to_cid hexId with
        | none => simp [get_location_info_from_hex_place_id, he, hg, hc, Ev.isHexEv]
        | some cid =>
            cases ho : api.placeDetails cid with
            | ok comps =>
                rcases hcs : extractCountryState comps with ⟨c, s⟩
                simp [get_location_info_from_hex_place_id, he, hg, hc, ho, hcs,
                  Ev.isHexEv]
            | transportError =>
                simp [get_location_info_from_hex_place_id, he, hg, hc, ho, Ev.isHexEv]
            | notOk =>
                simp [get_location_info_from_hex_place_id, he, hg, hc, ho, Ev.isHexEv]

/-! Behaviour of the place-name strategy. -/

theorem name_frame (name : String) (api : Oracle) (cache : Cache) (k : String)
    (h : k ≠ name) :
    dget (get_location_info_from_place_name name api cache).cache k
      = dget cache k := by
  by_cases he : name = ""
  · simp [get_location_info_from_place_name, he]
  · cases hg : dget cache name with
    | some cached => simp [get_location_info_from_place_name, he, hg]
    | none =>
        cases ho : api.geocodeAddr name with
        | ok comps =>
            rcases hcs : extractCountryState comps with ⟨c, s⟩
            simp [get_location_info_from_place_name, he, hg, ho, hcs,
              dget_dset_ne _ _ _ _ h]
        | transportError =>
            simp [get_location_info_from_place_name, he, hg, ho,
              dget_dset_ne _ _ _ _ h]
        | notOk =>
            simp [get_location_info_from_place_name, he, hg, ho,
              dget_dset_ne _ _ _ _ h]

theorem name_cases (name : String) (api : Oracle) (cache : Cache) :
    (get_location_info_from_place_name name api cache).cache = cache ∨
    ∃ c s, (get_location_info_from_place_name name api cache).cache
      = dset cache name (.jRec c s) := by
  by_cases he : name = ""
  · exact Or.inl (by simp [get_location_info_from_place_name, he])
  · cases hg : dget cache name with
    | some cached => exact Or.inl (by simp [get_location_info_from_place_name, he, hg])
    | none =>
        cases ho : api.geocodeAddr name with
        | ok comps =>
            rcases hcs : extractCountryState comps with ⟨c, s⟩
            exact Or.inr ⟨c, s, by
              simp [get_location_info_from_place_name, he, hg, ho, hcs]⟩
        | transportError =>
            exact Or.inr ⟨none, none, by
              simp [get_location_info_from_place_name, he, hg, ho]⟩
        | notOk =>
            exact Or.inr ⟨none, none, by
              simp [get_location_info_from_place_name, he, hg, ho]⟩

theorem name_entry_present (name : String) (api : Oracle) (cache : Cache)
    (he : name ≠ "") (h : dget cache name = none) :
    ∃ c s, dget (get_location_info_from_place_name name api cache).cache name
      = some (.jRec c s) := by
  cases ho : api.geocodeAddr name with
  | ok comps =>
      rcases hcs : extractCountryState comps with ⟨c, s⟩
      exact ⟨c, s, by
        simp [get_location_info_from_place_name, he, h, ho, hcs, dget_dset_self]⟩
  | transportError =>
      exact ⟨none, none, by
        simp [get_location_info_from_place_name, he, h, ho, dget_dset_self]⟩
  | notOk =>
      exact ⟨none, none, by
        simp [get_location_info_from_place_name, he, h, ho, dget_dset_self]⟩

theorem name_events (name : String) (api : Oracle) (cache : Cache) :
    ∀ e ∈ (get_location_info_from_place_name name api cache).events,
      Ev.isNameEv e = true := by
  by_cases he : name = ""
  · simp [get_location_info_from_place_name, he]
  · cases hg : dget cache name with
    | some cached => simp [get_location_info_from_place_name, he, hg, Ev.isNameEv]
    | none =>
        cases ho : api.geocodeAddr name with
        | ok comps =>
            rcases hcs : extractCountryState comps with ⟨c, s⟩
            simp [get_location_info_from_place_name, he, hg, ho, hcs, Ev.isNameEv]
        | transportError =>
            simp [get_location_info_from_place_name, he, hg, ho, Ev.isNameEv]
        | notOk =>
            simp [get_location_info_from_place_name, he, hg, ho, Ev.isNameEv]

/-! Predicate preservation through one row's resolution. -/

theorem resolveRow_shared_pred (api : Oracle) (title url : String)
    (shared place : Cache) (P : Cache → Prop) (hP : P shared)
    (hcoord : ∀ lat lon c, P c →
      P (get_location_info_from_coordinates lat lon api c).cache)
    (hhex : ∀ hexId c, P c →
      P (get_location_info_from_hex_place_id hexId api c).cache) :
    P (resolveRow api title url shared place).shared := by
  unfold resolveRow
  repeat' (first | split | dsimp only [])
  all_goals
    first
      | exact hP
      | exact hhex _ _ hP
      | exact hcoord _ _ _ hP
      | exact hhex _ _ (hcoord _ _ _ hP)

theorem resolveRow_place_pred (api : Oracle) (title url : String)
    (shared place : Cache) (P : Cache → Prop) (hP : P place)
    (hname : ∀ c, P c →
      P (get_location_info_from_place_name (extract_place_name title url) api c).cache) :
    P (resolveRow api title url shared place).place := by
  unfold resolveRow
  repeat' (first | split | dsimp only [])
  all_goals
    first
      | exact hP
      | exact hname _ hP

/-! The interrupt model: stopping after `n` rows is processing the length-`n`
prefix. -/

theorem runLoop_interrupt_take (api : Oracle) (n : Nat) (rows : List Row)
    (st : RunState) :
    runLoop api (some n) rows st = runLoop api none (rows.take n) st := by
  induction rows generalizing n st with
  | nil => cases n <;> simp [runLoop]
  | cons row rest ih =>
      cases n with
      | zero => simp [runLoop]
      | succ m => simp [runLoop, ih]

/-! Cache predicates through driver steps. -/

theorem stepRow_shared_pred (api : Oracle) (row : Row) (st : RunState)
    (P : Cache → Prop) (hP : P st.shared)
    (hcoord : ∀ lat lon c, P c →
      P (get_location_info_from_coordinates lat lon api c).cache)
    (hhex : ∀ hexId c, P c →
      P (get_location_info_from_hex_place_id hexId api c).cache) :
    P (stepRow api st row).shared := by
  unfold stepRow
  repeat' (first | split | dsimp only [])
  all_goals
    first
      | exact hP
      | exact resolveRow_shared_pred api row.title row.url st.shared st.place P hP
          hcoord hhex

theorem stepRow_place_pred (api : Oracle) (row : Row) (st : RunState)
    (P : Cache → Prop) (hP : P st.place)
    (hname : ∀ c, P c →
      P (get_location_info_from_place_name (extract_place_name row.title row.url)
          api c).cache) :
    P (stepRow api st row).place := by
  unfold stepRow
  repeat' (first | split | dsimp only [])
  all_goals
    first
      | exact hP
      | exact resolveRow_place_pred api row.title row.url st.shared st.place P hP hname

theorem runLoop_shared_pred (api : Oracle) (interruptAfter : Option Nat)
    (rows : List Row) (st : RunState) (P : Cache → Prop) (hP : P st.shared)
    (hcoord : ∀ lat lon c, P c →
      P (get_location_info_from_coordinates lat lon api c).cache)
    (hhex : ∀ hexId c, P c →
      P (get_location_info_from_hex_place_id hexId api c).cache) :
    P (runLoop api interruptAfter rows st).shared := by
  induction rows generalizing interruptAfter st with
  | nil =>
      cases interruptAfter with
      | none => simpa [runLoop] using hP
      | some n => cases n <;> simpa [runLoop] using hP
  | cons row rest ih =>
      cases interruptAfter with
      | none =>
          rw [show runLoop api none (row :: rest) st
              = runLoop api none rest (stepRow api st row) from rfl]
          exact ih none _ (stepRow_shared_pred api row st P hP hcoord hhex)
      | some n =>
          cases n with
          | zero => simpa [runLoop] using hP
          | succ m =>
              rw [show runLoop api (some (m + 1)) (row :: rest) st
                  = runLoop api (some m) rest (stepRow api st row) from rfl]
              exact ih (some m) _ (stepRow_shared_pred api row st P hP hcoord hhex)

theorem runLoop_place_pred (api : Oracle) (interruptAfter : Option Nat)
    (rows : List Row) (st : RunState) (P : Cache → Prop) (hP : P st.place)
    (hname : ∀ row ∈ rows, ∀ c, P c →
      P (get_location_info_from_place_name (extract_place_name row.title row.url)
          api c).cache) :
    P (runLoop api interruptAfter rows st).place := by
  induction rows generalizing interruptAfter st with
  | nil =>
      cases interruptAfter with
      | none => simpa [runLoop] using hP
      | some n => cases n <;> simpa [runLoop] using hP
  | cons row rest ih =>
      cases interruptAfter with
      | none =>
          rw [show runLoop api none (row :: rest) st
              = runLoop api none rest (stepRow api st row) from rfl]
          exact ih none _ (stepRow_place_pred api row st P hP (hname row (by simp)))
            (fun r hr => hname r (by simp [hr]))
      | some n =>
          cases n with
          | zero => simpa [runLoop] using hP
          | succ m =>
              rw [show runLoop api (some (m + 1)) (row :: rest) st
                  = runLoop api (some m) rest (stepRow api st row) from rfl]
              exact ih (some m) _
                (stepRow_place_pred api row st P hP (hname row (by simp)))
                (fun r hr => hname r (by simp [hr]))

/-! The two invariants instantiating the predicates: no reserved key, and
no duplicate keys. -/

theorem coord_sv (lat lon : DecFloat) (api : Oracle) (c : Cache)
    (h : dget c "schema_version" = none) :
    dget (get_location_info_from_coordinates lat lon api c).cache "schema_version"
      = none := by
  rw [coord_frame lat lon api c _ (Ne.symm (coordCacheKey_ne_schema lat lon))]
  exact h

theorem hex_sv (hexId : String) (api : Oracle) (c : Cache)
    (h : dget c "schema_version" = none) :
    dget (get_location_info_from_hex_place_id hexId api c).cache "schema_version"
      = none := by
  rw [hex_frame hexId api c _ (Ne.symm (hexCacheKey_ne_schema hexId))]
  exact h

theorem name_sv (name : String) (api : Oracle) (c : Cache)
    (hn : name ≠ "schema_version") (h : dget c "schema_version" = none) :
    dget (get_location_info_from_place_name name api c).cache "schema_version"
      = none := by
  rw [name_frame name api c _ (Ne.symm hn)]
  exact h

theorem coord_nodup (lat lon : DecFloat) (api : Oracle) (c : Cache)
    (h : (dkeys c).Nodup) :
    (dkeys (get_location_info_from_coordinates lat lon api c).cache).Nodup := by
  rcases coord_cases lat lon api c with h1 | ⟨cc, ss, h1⟩ <;> rw [h1]
  · exact h
  · exact nodup_dkeys_dset _ _ _ h

theorem hex_nodup (hexId : String) (api : Oracle) (c : Cache)
    (h : (dkeys c).Nodup) :
    (dkeys (get_location_info_from_hex_place_id hexId api c).cache).Nodup := by
  rcases hex_cases hexId api c with h1 | ⟨cc, ss, h1⟩ <;> rw [h1]
  · exact h
  · exact nodup_dkeys_dset _ _ _ h

theorem name_nodup (name : String) (api : Oracle) (c : Cache)
    (h : (dkeys c).Nodup) :
    (dkeys (get_location_info_from_place_name name api c).cache).Nodup := by
  rcases name_cases name api c with h1 | ⟨cc, ss, h1⟩ <;> rw [h1]
  · exact h
  · exact nodup_dkeys_dset _ _ _ h

/-! Lemmas about loading, saving and renaming cache files. -/

theorem dget_filter_out {α : Type} (l : List (String × α)) (k : String) :
    dget (l.filter (fun kv => kv.1 != k)) k = none := by
  induction l with
  | nil => simp [dget]
  | cons kv rest ih =>
      obtain ⟨k1, v1⟩ := kv
      by_cases h : k1 = k <;> simp [List.filter_cons, bne_iff_ne, h, dget, ih]

theorem append_v2bak_ne (s : String) : s ++ ".v2.bak" ≠ s := by
  intro h
  have hlen := congrArg String.length h
  rw [String.length_append] at hlen
  have h7 : (".v2.bak" : String).length = 7 := rfl
  rw [h7] at hlen
  omega

theorem fsRead_fsRename_src (fs : FS) (src dst : String) (content : JObj)
    (hget : dget fs.files src = some content) (hne : src ≠ dst) :
    fsRead (fsRename fs src dst) src = none := by
  simp only [fsRename, hget, fsRead]
  rw [dget_dset_ne _ _ _ _ hne]
  exact dget_filter_out _ _

theorem fsRead_rename_after_save (sh pl : JObj) (sf pf ofile : String) (fs : FS)
    (old_data : JObj) (hr : fsRead fs ofile = some old_data)
    (hsf : sf ≠ ofile) (hpf : pf ≠ ofile) :
    fsRead (fsRename (save_cache sh pl sf pf fs) ofile (ofile ++ ".v2.bak")) ofile
      = none := by
  have hget : dget (save_cache sh pl sf pf fs).files ofile = some old_data := by
    simp only [save_cache, fsWrite]
    rw [dget_dset_ne _ _ _ _ (Ne.symm hpf), dget_dset_ne _ _ _ _ (Ne.symm hsf)]
    exact hr
  exact fsRead_fsRename_src _ _ _ _ hget (Ne.symm (append_v2bak_ne ofile))

/-- The non-migrating branch of `load_cache`: with no legacy monolithic
file (or one that is itself the per-source file), the filesystem is
untouched and each namespace is the stripped file content. -/
theorem load_cache_not_migrating (sf pf : String) (fs : FS)
    (h : fsRead fs (old_cache_name pf) = none ∨
         ((old_cache_name pf).endsWith "_place_names.json") = true) :
    load_cache sf pf fs = (fs, readStripped fs sf, readStripped fs pf) := by
  rcases h with h | h
  · simp [load_cache, h, readStripped]
  · rcases hr : fsRead fs (old_cache_name pf) with _ | old
    · simp [load_cache, hr, readStripped]
    · simp [load_cache, hr, h, readStripped]

/-- After a migrating load, the legacy file has been renamed away. -/
theorem load_cache_migrating_no_old (sf pf : String) (fs : FS) (old_data : JObj)
    (hr : fsRead fs (old_cache_name pf) = some old_data)
    (he : ((old_cache_name pf).endsWith "_place_names.json") = false)
    (hsf : sf ≠ old_cache_name pf) (hpf : pf ≠ old_cache_name pf) :
    fsRead (load_cache sf pf fs).1 (old_cache_name pf) = none := by
  rcases hmv : migrate_cache_to_v3 old_data with ⟨sn, pn⟩
  simp only [load_cache, hr, he, hmv, Bool.not_false]
  exact fsRead_rename_after_save _ _ sf pf _ fs old_data hr hsf hpf

/-! Event classifier disjointness. -/

theorem isCoordEv_not_hex (e : Ev) (h : Ev.isCoordEv e = true) :
    Ev.isHexEv e = false := by
  cases e <;> simp_all [Ev.isCoordEv, Ev.isHexEv]

theorem isCoordEv_not_name (e : Ev) (h : Ev.isCoordEv e = true) :
    Ev.isNameEv e = false := by
  cases e <;> simp_all [Ev.isCoordEv, Ev.isNameEv]

theorem isHexEv_not_name (e : Ev) (h : Ev.isHexEv e = true) :
    Ev.isNameEv e = false := by
  cases e <;> simp_all [Ev.isHexEv, Ev.isNameEv]

/-! Characterizations of one row's resolution. -/

/-- When the coordinate strategy yields a truthy country, the row resolves
to exactly its output: no later strategy runs. -/
theorem resolveRow_coord_hit (api : Oracle) (title url : String)
    (shared place : Cache) (lat lon : DecFloat)
    (hc : extract_coordinates_from_url url = some (lat, lon))
    (ht : truthyStr (get_location_info_from_coordinates lat lon api shared).country
      = true) :
    resolveRow api title url shared place
      = RowOut.mk (get_location_info_from_coordinates lat lon api shared).country
          (get_location_info_from_coordinates lat lon api shared).state
          (get_location_info_from_coordinates lat lon api shared).cache
          place
          (get_location_info_from_coordinates lat lon api shared).events := by
  unfold resolveRow
  rw [hc]
  dsimp only []
  rw [if_pos ht, if_pos ht]

/-- When the URL carries a hex Place ID, the row resolves to the state
after the first two strategies: the place-name strategy never runs. -/
theorem resolveRow_hex_shape (api : Oracle) (title url : String)
    (shared place : Cache) (hexId : String)
    (hhex : extract_place_id url = some hexId) :
    resolveRow api title url shared place
      = (let st1 :=
           match extract_coordinates_from_url url with
           | some (lat, lon) =>
               let o := get_location_info_from_coordinates lat lon api shared
               RowOut.mk o.country o.state o.cache place o.events
           | none => RowOut.mk none none shared place []
         if truthyStr st1.country then st1
         else
           let o := get_location_info_from_hex_place_id hexId api st1.shared
           { st1 with country := o.country, state := o.state, shared := o.cache,
                      events := st1.events ++ o.events }) := by
  unfold resolveRow
  rw [hhex]
  dsimp only []
  split
  · rfl
  · split
    · rfl
    · split
      · simp
      · rfl

/-! Unfolding helpers for the driver. -/

theorem runMain_eq (api : Oracle) (rows : List Row) (interruptAfter : Option Nat)
    (sf pf : String) (fs : FS) :
    runMain api rows interruptAfter sf pf fs
      = finalize sf pf
          (runLoop api interruptAfter rows
            (RunState.mk (load_cache sf pf fs).2.1 (load_cache sf pf fs).2.2 [] [] []))
          (load_cache sf pf fs).1 := rfl

theorem finalize_reads (sf pf : String) (st : RunState) (fs : FS) (hne : sf ≠ pf) :
    fsRead (finalize sf pf st fs).fs sf = some (cacheWithSchema st.shared) ∧
    fsRead (finalize sf pf st fs).fs pf = some (cacheWithSchema st.place) ∧
    ((finalize sf pf st fs).failedReport = none ↔ st.failedLookups = []) ∧
    (finalize sf pf st fs).state = st := by
  refine ⟨?_, ?_, ?_, rfl⟩
  · simp only [finalize, save_cache, fsWrite, fsRead]
    rw [dget_dset_ne _ _ _ _ hne, dget_dset_self]
  · simp only [finalize, save_cache, fsWrite, fsRead]
    rw [dget_dset_self]
  · simp only [finalize]
    by_cases h : st.failedLookups.isEmpty = true
    · simp [h, List.isEmpty_iff.mp h]
    · have : st.failedLookups ≠ [] := by
        intro he
        exact h (by simp [he])
      simp [h, this]

/-- Under a hex-ID-bearing URL no name events ever occur in a row's
resolution. -/
theorem resolveRow_no_name_events_of_hex (api : Oracle) (title url : String)
    (shared place : Cache) (hexId : String)
    (hhex : extract_place_id url = some hexId) :
    ∀ e ∈ (resolveRow api title url shared place).events, Ev.isNameEv e = false := by
  rw [resolveRow_hex_shape api title url shared place hexId hhex]
  cases hc : extract_coordinates_from_url url with
  | none =>
      dsimp only []
      split
      · intro e he
        simp at he
      · intro e he
        dsimp at he
        exact isHexEv_not_name e (hex_events _ _ _ e he)
  | some latlon =>
      obtain ⟨lat, lon⟩ := latlon
      dsimp only []
      split
      · intro e he
        exact isCoordEv_not_name e (coord_events _ _ _ _ e he)
      · intro e he
        dsimp at he
        rcases List.mem_append.mp he with h | h
        · exact isCoordEv_not_name e (coord_events _ _ _ _ e h)
        · exact isHexEv_not_name e (hex_events _ _ _ e h)

/-- Under a hex-ID-bearing URL the per-source namespace is untouched by a
row's resolution. -/
theorem resolveRow_place_eq_of_hex (api : Oracle) (title url : String)
    (shared place : Cache) (hexId : String)
    (hhex : extract_place_id url = some hexId) :
    (resolveRow api title url shared place).place = place := by
  rw [resolveRow_hex_shape api title url shared place hexId hhex]
  cases hc : extract_coordinates_from_url url with
  | none =>
      dsimp only []
      split <;> rfl
  | some latlon =>
      obtain ⟨lat, lon⟩ := latlon
      dsimp only []
      split <;> rfl

/-! The state-implies-country invariant through the strategies. -/

theorem inv_dset (c : Cache) (k : String) (co st : Option String)
    (hc : cacheStatesHaveCountry c) (h : st.isSome → co.isSome) :
    cacheStatesHaveCountry (dset c k (.jRec co st)) := by
  intro k' co' st' hk hs
  by_cases hkk : k' = k
  · subst hkk
    rw [dget_dset_self] at hk
    simp only [Option.some.injEq, JVal.jRec.injEq] at hk
    obtain ⟨h1, h2⟩ := hk
    subst h1
    subst h2
    exact h hs
  · rw [dget_dset_ne _ _ _ _ hkk] at hk
    exact hc _ _ _ hk hs

theorem cached_inv_step (cache : Cache) (key : String) (cached : JVal)
    (hc : cacheStatesHaveCountry cache) (hgg : dget cache key = some cached) :
    (jvalState cached).isSome → (jvalCountry cached).isSome := by
  cases cached <;> simp [jvalState, jvalCountry]
  case jRec co stt => exact fun hs => hc _ _ _ hgg hs

theorem coord_inv (lat lon : DecFloat) (api : Oracle) (cache : Cache)
    (hg : goodOutcome (api.geocodeCoord lat lon))
    (hc : cacheStatesHaveCountry cache) :
    ((get_location_info_from_coordinates lat lon api cache).state.isSome →
     (get_location_info_from_coordinates lat lon api cache).country.isSome) ∧
    cacheStatesHaveCountry
      (get_location_info_from_coordinates lat lon api cache).cache := by
  cases hgg : dget cache (coordCacheKey lat lon) with
  | some cached =>
      simp only [get_location_info_from_coordinates, hgg]
      exact ⟨cached_inv_step cache _ cached hc hgg, hc⟩
  | none =>
      cases ho : api.geocodeCoord lat lon with
      | ok comps =>
          rcases hcs : extractCountryState comps with ⟨c, st⟩
          have hgood := hg comps ho
          rw [hcs] at hgood
          simp only at hgood
          simp only [get_location_info_from_coordinates, hgg, ho, hcs]
          exact ⟨hgood, inv_dset cache _ c st hc hgood⟩
      | transportError =>
          simp only [get_location_info_from_coordinates, hgg, ho]
          exact ⟨by simp, inv_dset cache _ none none hc (by simp)⟩
      | notOk =>
          simp only [get_location_info_from_coordinates, hgg, ho]
          exact ⟨by simp, inv_dset cache _ none none hc (by simp)⟩

theorem hex_inv (hexId : String) (api : Oracle) (cache : Cache)
    (hg : ∀ cid, goodOutcome (api.placeDetails cid))
    (hc : cacheStatesHaveCountry cache) :
    ((get_location_info_from_hex_place_id hexId api cache).state.isSome →
     (get_location_info_from_hex_place_id hexId api cache).country.isSome) ∧
    cacheStatesHaveCountry
      (get_location_info_from_hex_place_id hexId api cache).cache := by
  by_cases he : hexId = ""
  · simp only [get_location_info_from_hex_place_id, he, if_pos]
    exact ⟨by simp, hc⟩
  · cases hgg : dget cache (hexCacheKey hexId) with
    | some cached =>
        simp only [get_location_info_from_hex_place_id, if_neg he, hgg]
        exact ⟨cached_inv_step cache _ cached hc hgg, hc⟩
    | none =>
        cases hcid : hex_to_cid hexId with
        | none =>
            simp only [get_location_info_from_hex_place_id, if_neg he, hgg, hcid]
            exact ⟨by simp, inv_dset cache _ none none hc (by simp)⟩
        | some cid =>
            cases ho : api.placeDetails cid with
            | ok comps =>
                rcases hcs : extractCountryState comps with ⟨c, st⟩
                have hgood := hg cid comps ho
                rw [hcs] at hgood
                simp only at hgood
                simp only [get_location_info_from_hex_place_id, if_neg he, hgg,
                  hcid, ho, hcs]
                exact ⟨hgood, inv_dset cache _ c st hc hgood⟩
            | transportError =>
                simp only [get_location_info_from_hex_place_id, if_neg he, hgg,
                  hcid, ho]
                exact ⟨by simp, inv_dset cache _ none none hc (by simp)⟩
            | notOk =>
                simp only [get_location_info_from_hex_place_id, if_neg he, hgg,
                  hcid, ho]
                exact ⟨by simp, inv_dset cache _ none none hc (by simp)⟩

theorem name_inv (name : String) (api : Oracle) (cache : Cache)
    (hg : goodOutcome (api.geocodeAddr name))
    (hc : cacheStatesHaveCountry cache) :
    ((get_location_info_from_place_name name api cache).state.isSome →
     (get_location_info_from_place_name name api cache).country.isSome) ∧
    cacheStatesHaveCountry
      (get_location_info_from_place_name name api cache).cache := by
  by_cases he : name = ""
  · simp only [get_location_info_from_place_name, he, if_pos]
    exact ⟨by simp, hc⟩
  · cases hgg : dget cache name with
    | some cached =>
        simp only [get_location_info_from_place_name, if_neg he, hgg]
        exact ⟨cached_inv_step cache _ cached hc hgg, hc⟩
    | none =>
        cases ho : api.geocodeAddr name with
        | ok comps =>
            rcases hcs : extractCountryState comps with ⟨c, st⟩
            have hgood := hg comps ho
            rw [hcs] at hgood
            simp only at hgood
            simp only [get_location_info_from_place_name, if_neg he, hgg, ho, hcs]
            exact ⟨hgood, inv_dset cache _ c st hc hgood⟩
        | transportError =>
            simp only [get_location_info_from_place_name, if_neg he, hgg, ho]
            exact ⟨by simp, inv_dset cache _ none none hc (by simp)⟩
        | notOk =>
            simp only [get_location_info_from_place_name, if_neg he, hgg, ho]
            exact ⟨by simp, inv_dset cache _ none none hc (by simp)⟩

theorem apiNone_good : goodOracle apiNone := by
  refine ⟨fun _ _ => ?_, fun _ => ?_, fun _ => ?_⟩ <;>
    intro comps h <;> simp [apiNone] at h

theorem empty_cache_inv : cacheStatesHaveCountry ([] : Cache) := by
  intro k co st h hs
  simp [dget] at h

/-! The reserved key and duplicate-freedom through migration and load. -/

theorem sublist_dkeys_filterMap (l : JObj) :
    (dkeys (l.filterMap
      (fun kv => (migrateV1Val kv.2).map (fun v => (kv.1, v))))).Sublist (dkeys l) := by
  induction l with
  | nil => simp [dkeys]
  | cons kv rest ih =>
      obtain ⟨k1, v1⟩ := kv
      cases hm : migrateV1Val v1 with
      | none =>
          simp only [List.filterMap_cons, hm, Option.map_none', dkeys, List.map_cons]
          exact ih.trans (List.sublist_cons_self _ _)
      | some w =>
          simp only [List.filterMap_cons, hm, Option.map_some', dkeys, List.map_cons]
          exact List.Sublist.cons₂ _ ih

theorem migrate_once_sv_nodup (old : JObj) (hnd : (dkeys old).Nodup) :
    dget (migrate_cache_once old) "schema_version" = none ∧
    (dkeys (migrate_cache_once old)).Nodup := by
  unfold migrate_cache_once
  split
  · exact ⟨dget_stripSchema_self old, nodup_dkeys_stripSchema old hnd⟩
  · constructor
    · rw [dget_eq_none_iff]
      intro hmem
      have hsub := (sublist_dkeys_filterMap (stripSchema old)).subset hmem
      exact (dget_eq_none_iff _ _).mp (dget_stripSchema_self old) hsub
    · exact (sublist_dkeys_filterMap (stripSchema old)).nodup
        (nodup_dkeys_stripSchema old hnd)

theorem migrate_to_v3_sv_nodup (old : JObj) (hnd : (dkeys old).Nodup) :
    dget (migrate_cache_to_v3 old).1 "schema_version" = none ∧
    dget (migrate_cache_to_v3 old).2 "schema_version" = none ∧
    (dkeys (migrate_cache_to_v3 old).1).Nodup ∧
    (dkeys (migrate_cache_to_v3 old).2).Nodup := by
  have hmco := migrate_once_sv_nodup old hnd
  have hupnodup : (dkeys (if getSchemaVersion old < 2 then
      ("schema_version", JVal.jInt 2) :: migrate_cache_once old else old)).Nodup := by
    split
    · rw [show dkeys (("schema_version", JVal.jInt 2) :: migrate_cache_once old)
          = "schema_version" :: dkeys (migrate_cache_once old) from rfl,
        List.nodup_cons]
      exact ⟨(dget_eq_none_iff _ _).mp hmco.1, hmco.2⟩
    · exact hnd
  unfold migrate_cache_to_v3
  dsimp only []
  refine ⟨?_, ?_, ?_, ?_⟩
  · exact dget_filter_none _ _ _ (dget_stripSchema_self _)
  · exact dget_filter_none _ _ _ (dget_stripSchema_self _)
  · exact nodup_dkeys_filter _ _ (nodup_dkeys_stripSchema _ hupnodup)
  · exact nodup_dkeys_filter _ _ (nodup_dkeys_stripSchema _ hupnodup)

theorem readStripped_sv_nodup (fs : FS) (path : String)
    (hwf : ∀ p obj, fsRead fs p = some obj → (dkeys obj).Nodup) :
    dget (readStripped fs path) "schema_version" = none ∧
    (dkeys (readStripped fs path)).Nodup := by
  unfold readStripped
  rcases h : fsRead fs path with _ | obj
  · simp [dget, dkeys]
  · exact ⟨dget_stripSchema_self obj, nodup_dkeys_stripSchema obj (hwf path obj h)⟩

/-- The migrating branch of `load_cache`, written out. -/
theorem load_cache_migrating (sf pf : String) (fs : FS) (old_data : JObj)
    (hr : fsRead fs (old_cache_name pf) = some old_data)
    (he : ((old_cache_name pf).endsWith "_place_names.json") = false) :
    load_cache sf pf fs
      = (fsRename (save_cache
            (dupdate (readStripped fs sf) (migrate_cache_to_v3 old_data).1)
            (migrate_cache_to_v3 old_data).2 sf pf fs) (old_cache_name pf)
            (old_cache_name pf ++ ".v2.bak"),
         dupdate (readStripped fs sf) (migrate_cache_to_v3 old_data).1,
         (migrate_cache_to_v3 old_data).2) := by
  rcases hmv : migrate_cache_to_v3 old_data with ⟨sn, pn⟩
  simp only [load_cache, hr, he, hmv, Bool.not_false, readStripped]

theorem load_cache_sv_nodup (sf pf : String) (fs : FS)
    (hwf : ∀ path obj, fsRead fs path = some obj → (dkeys obj).Nodup) :
    dget (load_cache sf pf fs).2.1 "schema_version" = none ∧
    dget (load_cache sf pf fs).2.2 "schema_version" = none ∧
    (dkeys (load_cache sf pf fs).2.1).Nodup ∧
    (dkeys (load_cache sf pf fs).2.2).Nodup := by
  rcases hr : fsRead fs (old_cache_name pf) with _ | old_data
  · rw [load_cache_not_migrating sf pf fs (Or.inl hr)]
    exact ⟨(readStripped_sv_nodup fs sf hwf).1, (readStripped_sv_nodup fs pf hwf).1,
      (readStripped_sv_nodup fs sf hwf).2, (readStripped_sv_nodup fs pf hwf).2⟩
  · by_cases he : ((old_cache_name pf).endsWith "_place_names.json") = true
    · rw [load_cache_not_migrating sf pf fs (Or.inr he)]
      exact ⟨(readStripped_sv_nodup fs sf hwf).1, (readStripped_sv_nodup fs pf hwf).1,
        (readStripped_sv_nodup fs sf hwf).2, (readStripped_sv_nodup fs pf hwf).2⟩
    · rw [load_cache_migrating sf pf fs old_data hr (by simpa using he)]
      have hm := migrate_to_v3_sv_nodup old_data (hwf _ _ hr)
      refine ⟨?_, hm.2.1, ?_, hm.2.2.2⟩
      · rw [dget_dupdate_not_mem _ _ _ ((dget_eq_none_iff _ _).mp hm.1)]
        exact (readStripped_sv_nodup fs sf hwf).1
      · exact nodup_dkeys_dupdate _ _ (readStripped_sv_nodup fs sf hwf).2

theorem cacheWithSchema_spec (c : Cache) (hsv : dget c "schema_version" = none)
    (hnd : (dkeys c).Nodup) :
    dget (cacheWithSchema c) "schema_version" = some (.jInt CACHE_SCHEMA_VERSION) ∧
    stripSchema (cacheWithSchema c) = c := by
  have hform : cacheWithSchema c
      = ("schema_version", JVal.jInt CACHE_SCHEMA_VERSION) :: c := by
    unfold cacheWithSchema
    rw [dupdate_eq_append]
    · rfl
    · intro k hk
      have hksv : k ≠ "schema_version" := by
        intro hke
        subst hke
        exact (dget_eq_none_iff _ _).mp hsv hk
      simp [dget, Ne.symm hksv]
    · exact hnd
  constructor
  · rw [hform]
    simp [dget]
  · rw [hform]
    unfold stripSchema
    rw [List.filter_cons]
    simp only [bne_self_eq_false, Bool.false_eq_true, if_false]
    exact filter_key_ne_eq_self c _ hsv

/-! Claim theorems. -/

/-- C9: for every title and URL, `extract_place_name` returns the trimmed
title when the title is non-empty after trimming; otherwise, when the URL
contains a `/place/<segment>/` path component, it returns that segment with
literal `+` replaced by space and percent-decoded; otherwise it returns the
empty string. -/
theorem extract_place_name_spec (title url : String) :
    (pyStrip title ≠ "" → extract_place_name title url = pyStrip title) ∧
    (pyStrip title = "" →
      ∀ seg, searchSuffixes matchPlaceAt url.data = some seg →
        extract_place_name title url
          = String.mk (percentDecode
              (seg.data.map (fun c => if c = '+' then ' ' else c)))) ∧
    (pyStrip title = "" → searchSuffixes matchPlaceAt url.data = none →
      extract_place_name title url = "") := by
  refine ⟨?_, ?_, ?_⟩
  · intro h
    have ht : title ≠ "" := by
      intro he
      subst he
      exact h rfl
    simp [extract_place_name, bne_iff_ne, ht, h]
  · intro h seg hseg
    simp [extract_place_name, bne_iff_ne, h, hseg]
  · intro h hn
    simp [extract_place_name, bne_iff_ne, h, hn]

/-- Witness for C9: a title that trims to `Berlin` is returned as such, and
with an empty title the URL segment `Caf%C3%A9+x` is extracted, `+` made a
space and the escape decoded. -/
theorem extract_place_name_spec_witness :
    pyStrip "  Berlin " ≠ "" ∧
    extract_place_name "  Berlin " "u" = pyStrip "  Berlin " ∧
    pyStrip "" = "" ∧
    searchSuffixes matchPlaceAt ("https://g/place/Caf%C3%A9+x/d".data)
      = some "Caf%C3%A9+x" ∧
    extract_place_name "" "https://g/place/Caf%C3%A9+x/d"
      = String.mk (percentDecode
          (("Caf%C3%A9+x").data.map (fun c => if c = '+' then ' ' else c))) :=
  ⟨by decide, (extract_place_name_spec "  Berlin " "u").1 (by decide), rfl, by decide,
    (extract_place_name_spec "" "https://g/place/Caf%C3%A9+x/d").2.1 rfl
      "Caf%C3%A9+x" (by decide)⟩

/-- C10: each strategy call mutates at most its own key — the coordinate
key, the `hex:` key, or the place-name key — and every other key's mapped
value is unchanged. -/
theorem strategy_frame_effect (api : Oracle) (cache : Cache) (k : String) :
    (∀ lat lon, k ≠ coordCacheKey lat lon →
       dget (get_location_info_from_coordinates lat lon api cache).cache k
         = dget cache k) ∧
    (∀ hexId, k ≠ hexCacheKey hexId →
       dget (get_location_info_from_hex_place_id hexId api cache).cache k
         = dget cache k) ∧
    (∀ name, k ≠ name →
       dget (get_location_info_from_place_name name api cache).cache k
         = dget cache k) :=
  ⟨fun lat lon h => coord_frame lat lon api cache k h,
   fun hexId h => hex_frame hexId api cache k h,
   fun name h => name_frame name api cache k h⟩

/-- Witness for C10: a pre-existing entry under key `a` survives a
coordinate miss, a hex miss, and a name miss untouched. -/
theorem strategy_frame_effect_witness :
    ("a" : String) ≠ coordCacheKey (DecFloat.mk false 1 []) (DecFloat.mk false 2 []) ∧
    dget (get_location_info_from_coordinates (DecFloat.mk false 1 [])
        (DecFloat.mk false 2 []) apiNone [("a", JVal.jRec none none)]).cache "a"
      = dget [("a", JVal.jRec none none)] "a" ∧
    ("a" : String) ≠ hexCacheKey "0x1:0x2" ∧
    dget (get_location_info_from_hex_place_id "0x1:0x2" apiNone
        [("a", JVal.jRec none none)]).cache "a"
      = dget [("a", JVal.jRec none none)] "a" ∧
    ("a" : String) ≠ "Paris" ∧
    dget (get_location_info_from_place_name "Paris" apiNone
        [("a", JVal.jRec none none)]).cache "a"
      = dget [("a", JVal.jRec none none)] "a" :=
  ⟨by decide,
   (strategy_frame_effect apiNone [("a", JVal.jRec none none)] "a").1
     (DecFloat.mk false 1 []) (DecFloat.mk false 2 []) (by decide),
   by decide,
   (strategy_frame_effect apiNone [("a", JVal.jRec none none)] "a").2.1
     "0x1:0x2" (by decide),
   by decide,
   (strategy_frame_effect apiNone [("a", JVal.jRec none none)] "a").2.2
     "Paris" (by decide)⟩

/-- C4: after any strategy lookup on a key not previously in its namespace
— success, provider-empty, transport error, or failed hex conversion — the
namespace holds an explicit `{country, state}` record for that key, so a
looked-up-and-failed key differs from a never-looked-up one. -/
theorem negative_cache_entries (api : Oracle) (cache : Cache) :
    (∀ lat lon, dget cache (coordCacheKey lat lon) = none →
       ∃ c s, dget (get_location_info_from_coordinates lat lon api cache).cache
         (coordCacheKey lat lon) = some (.jRec c s)) ∧
    (∀ hexId, hexId ≠ "" → dget cache (hexCacheKey hexId) = none →
       ∃ c s, dget (get_location_info_from_hex_place_id hexId api cache).cache
         (hexCacheKey hexId) = some (.jRec c s)) ∧
    (∀ name, name ≠ "" → dget cache name = none →
       ∃ c s, dget (get_location_info_from_place_name name api cache).cache name
         = some (.jRec c s)) :=
  ⟨fun lat lon h => coord_entry_present lat lon api cache h,
   fun hexId he h => hex_entry_present hexId api cache he h,
   fun name he h => name_entry_present name api cache he h⟩

/-- Witness for C4: on an empty cache, a failed coordinate call, a hex id
whose conversion fails (`zz` has no colon), and a failed address call each
leave an explicit null record under their own key. -/
theorem negative_cache_entries_witness :
    dget ([] : Cache) (coordCacheKey (DecFloat.mk false 1 []) (DecFloat.mk false 2 []))
      = none ∧
    (∃ c s, dget (get_location_info_from_coordinates (DecFloat.mk false 1 [])
        (DecFloat.mk false 2 []) apiNone []).cache
        (coordCacheKey (DecFloat.mk false 1 []) (DecFloat.mk false 2 []))
      = some (.jRec c s)) ∧
    ("zz" : String) ≠ "" ∧ dget ([] : Cache) (hexCacheKey "zz") = none ∧
    (∃ c s, dget (get_location_info_from_hex_place_id "zz" apiNone []).cache
        (hexCacheKey "zz") = some (.jRec c s)) ∧
    ("Paris" : String) ≠ "" ∧ dget ([] : Cache) "Paris" = none ∧
    (∃ c s, dget (get_location_info_from_place_name "Paris" apiNone []).cache "Paris"
      = some (.jRec c s)) :=
  ⟨rfl,
   (negative_cache_entries apiNone []).1 (DecFloat.mk false 1 [])
     (DecFloat.mk false 2 []) rfl,
   by decide, rfl,
   (negative_cache_entries apiNone []).2.1 "zz" (by decide) rfl,
   by decide, rfl,
   (negative_cache_entries apiNone []).2.2 "Paris" (by decide) rfl⟩

/-- C5: migrating a below-current-version cache maps every bare string
entry other than `United States` to `{country: <string>, state: null}`,
removes every `United States` entry, and turns explicit nulls into
`{country: null, state: null}` records. -/
theorem migrate_v1_entries (d : JObj) (hv : getSchemaVersion d < CACHE_SCHEMA_VERSION)
    (hnd : (dkeys d).Nodup) :
    (∀ k v, k ≠ "schema_version" → dget d k = some (.jStr v) → v ≠ "United States" →
       dget (migrate_cache_once d) k = some (.jRec (some v) none)) ∧
    (∀ k, k ≠ "schema_version" → dget d k = some (.jStr "United States") →
       dget (migrate_cache_once d) k = none) ∧
    (∀ k, k ≠ "schema_version" → dget d k = some .jNull →
       dget (migrate_cache_once d) k = some (.jRec none none)) := by
  have hle : ¬ getSchemaVersion d ≥ CACHE_SCHEMA_VERSION := by omega
  have hmig : migrate_cache_once d
      = (stripSchema d).filterMap
          (fun kv => (migrateV1Val kv.2).map (fun v => (kv.1, v))) := by
    simp [migrate_cache_once, hle]
  have hnd' : (dkeys (stripSchema d)).Nodup := nodup_dkeys_stripSchema d hnd
  refine ⟨?_, ?_, ?_⟩
  · intro k v hk hget hus
    rw [hmig, dget_filterMap_migrate _ hnd' k, dget_stripSchema_ne _ _ hk, hget]
    simp [migrateV1Val, hus]
  · intro k hk hget
    rw [hmig, dget_filterMap_migrate _ hnd' k, dget_stripSchema_ne _ _ hk, hget]
    simp [migrateV1Val]
  · intro k hk hget
    rw [hmig, dget_filterMap_migrate _ hnd' k, dget_stripSchema_ne _ _ hk, hget]
    simp [migrateV1Val]

/-- Witness for C5: the spec's example — `{k1: Germany, k2: United States}`
at version 1 migrates to `{k1: {country: Germany, state: null}}` with `k2`
gone. -/
theorem migrate_v1_entries_witness :
    getSchemaVersion [("k1", JVal.jStr "Germany"), ("k2", JVal.jStr "United States")]
      < CACHE_SCHEMA_VERSION ∧
    dget (migrate_cache_once
        [("k1", JVal.jStr "Germany"), ("k2", JVal.jStr "United States")]) "k1"
      = some (.jRec (some "Germany") none) ∧
    dget (migrate_cache_once
        [("k1", JVal.jStr "Germany"), ("k2", JVal.jStr "United States")]) "k2"
      = none ∧
    migrate_cache_once [("k1", JVal.jStr "Germany"), ("k2", JVal.jStr "United States")]
      = [("k1", JVal.jRec (some "Germany") none)] :=
  ⟨by decide,
   (migrate_v1_entries _ (by decide) (by decide)).1 "k1" "Germany"
     (by decide) rfl (by decide),
   (migrate_v1_entries _ (by decide) (by decide)).2.1 "k2" (by decide) rfl,
   by decide⟩

/-- C6: schema migration is idempotent — on data already at (or above) the
target version `migrate_cache_once` only strips the reserved tag and does
not re-migrate or re-purge, loading with no legacy monolithic file present
performs no migration, and a second load after any load performs none
either (the legacy file having been renamed away). -/
theorem migration_idempotent_spec :
    (∀ d : JObj, getSchemaVersion d ≥ CACHE_SCHEMA_VERSION →
       migrate_cache_once d = stripSchema d) ∧
    (∀ sf pf fs, fsRead fs (old_cache_name pf) = none →
       load_cache sf pf fs = (fs, readStripped fs sf, readStripped fs pf)) ∧
    (∀ sf pf fs, sf ≠ old_cache_name pf → pf ≠ old_cache_name pf →
       load_cache sf pf (load_cache sf pf fs).1
         = ((load_cache sf pf fs).1,
            readStripped (load_cache sf pf fs).1 sf,
            readStripped (load_cache sf pf fs).1 pf)) := by
  refine ⟨?_, ?_, ?_⟩
  · intro d h
    rw [migrate_cache_once, if_pos h]
  · intro sf pf fs h
    exact load_cache_not_migrating sf pf fs (Or.inl h)
  · intro sf pf fs hsf hpf
    rcases hr : fsRead fs (old_cache_name pf) with _ | old_data
    · rw [load_cache_not_migrating sf pf fs (Or.inl hr)]
      exact load_cache_not_migrating sf pf fs (Or.inl hr)
    · by_cases he : ((old_cache_name pf).endsWith "_place_names.json") = true
      · rw [load_cache_not_migrating sf pf fs (Or.inr he)]
        exact load_cache_not_migrating sf pf fs (Or.inr he)
      · exact load_cache_not_migrating sf pf _
          (Or.inl (load_cache_migrating_no_old sf pf fs old_data hr
            (by simpa using he) hsf hpf))

/-- Witness for C6: a version-3 cache is only stripped of its tag (the
`United States` record survives), and on a filesystem with a split cache
file but no legacy file, loading reads it back unchanged and a reload
changes nothing. -/
theorem migration_idempotent_spec_witness :
    getSchemaVersion [("schema_version", JVal.jInt 3), ("k", JVal.jStr "United States")]
      ≥ CACHE_SCHEMA_VERSION ∧
    migrate_cache_once
        [("schema_version", JVal.jInt 3), ("k", JVal.jStr "United States")]
      = stripSchema [("schema_version", JVal.jInt 3), ("k", JVal.jStr "United States")] ∧
    fsRead (FS.mk [("s.json", [("schema_version", JVal.jInt 3),
        ("hex:0x1:0x2", JVal.jRec (some "Germany") none)])]) (old_cache_name "p_place_names.json")
      = none ∧
    load_cache "s.json" "p_place_names.json"
        (FS.mk [("s.json", [("schema_version", JVal.jInt 3),
          ("hex:0x1:0x2", JVal.jRec (some "Germany") none)])])
      = (FS.mk [("s.json", [("schema_version", JVal.jInt 3),
          ("hex:0x1:0x2", JVal.jRec (some "Germany") none)])],
         [("hex:0x1:0x2", JVal.jRec (some "Germany") none)], []) :=
  ⟨by decide,
   (migration_idempotent_spec.1 _ (by decide)),
   by decide,
   by
     rw [migration_idempotent_spec.2.1 "s.json" "p_place_names.json" _ (by decide)]
     decide⟩

/-- C1: whether the processing loop completes or is interrupted at any row
boundary, the finalize step still runs: the interrupted run's artifacts
equal those of a normal run over the processed prefix, both cache files
are written from the in-memory namespaces, and the failed-lookup report
exists exactly when the failed-lookup list is non-empty. -/
theorem finalize_on_interrupt (api : Oracle) (rows : List Row) (n : Nat)
    (sf pf : String) (fs : FS) (hne : sf ≠ pf) :
    runMain api rows (some n) sf pf fs = runMain api (rows.take n) none sf pf fs ∧
    fsRead (runMain api rows (some n) sf pf fs).fs sf
      = some (cacheWithSchema (runMain api rows (some n) sf pf fs).state.shared) ∧
    fsRead (runMain api rows (some n) sf pf fs).fs pf
      = some (cacheWithSchema (runMain api rows (some n) sf pf fs).state.place) ∧
    ((runMain api rows (some n) sf pf fs).failedReport = none ↔
      (runMain api rows (some n) sf pf fs).state.failedLookups = []) := by
  refine ⟨?_, ?_, ?_, ?_⟩
  · rw [runMain_eq, runMain_eq, runLoop_interrupt_take]
  · rw [runMain_eq]
    exact (finalize_reads sf pf _ _ hne).1
  · rw [runMain_eq]
    exact (finalize_reads sf pf _ _ hne).2.1
  · rw [runMain_eq]
    exact (finalize_reads sf pf _ _ hne).2.2.1

/-- Witness for C1: one unresolvable row, interrupted after it: both cache
files exist, the report exists, and the artifacts equal the uninterrupted
run on the same prefix. -/
theorem finalize_on_interrupt_witness :
    ("a" : String) ≠ "b" ∧
    (runMain apiNone [Row.mk "t" "u"] (some 1) "a" "b" (FS.mk [])
        = runMain apiNone ([Row.mk "t" "u"].take 1) none "a" "b" (FS.mk []) ∧
     fsRead (runMain apiNone [Row.mk "t" "u"] (some 1) "a" "b" (FS.mk [])).fs "a"
        = some (cacheWithSchema
            (runMain apiNone [Row.mk "t" "u"] (some 1) "a" "b" (FS.mk [])).state.shared) ∧
     fsRead (runMain apiNone [Row.mk "t" "u"] (some 1) "a" "b" (FS.mk [])).fs "b"
        = some (cacheWithSchema
            (runMain apiNone [Row.mk "t" "u"] (some 1) "a" "b" (FS.mk [])).state.place) ∧
     ((runMain apiNone [Row.mk "t" "u"] (some 1) "a" "b" (FS.mk [])).failedReport = none ↔
       (runMain apiNone [Row.mk "t" "u"] (some 1) "a" "b" (FS.mk [])).state.failedLookups
         = [])) :=
  ⟨by decide,
   finalize_on_interrupt apiNone [Row.mk "t" "u"] 1 "a" "b" (FS.mk []) (by decide)⟩

/-- C3: with a non-empty extracted place name and a hex-ID-shaped substring
in the URL, the place-name strategy never runs — no name cache lookup or
outbound address call happens and the per-source namespace is untouched —
even when the hex strategy itself failed; if no strategy produced a truthy
country the row is appended to the failed-lookup list. -/
theorem conflict_gating (api : Oracle) (st : RunState) (title url : String)
    (hname : extract_place_name title url ≠ "")
    (hhx : (extract_place_id url).isSome = true) :
    (∀ e ∈ (resolveRow api title url st.shared st.place).events,
       Ev.isNameEv e = false) ∧
    (resolveRow api title url st.shared st.place).place = st.place ∧
    (url ≠ "" →
      truthyStr (resolveRow api title url st.shared st.place).country = false →
      (stepRow api st (Row.mk title url)).failedLookups
        = st.failedLookups ++ [(title, url)]) := by
  obtain ⟨hexId, hhex⟩ := Option.isSome_iff_exists.mp hhx
  refine ⟨resolveRow_no_name_events_of_hex api title url st.shared st.place hexId hhex,
    resolveRow_place_eq_of_hex api title url st.shared st.place hexId hhex, ?_⟩
  · intro hurl htr
    unfold stepRow
    rw [if_neg (show ¬(Row.mk title url).url = "" from hurl)]
    dsimp only []
    rw [if_neg (show ¬truthyStr (resolveRow api title url st.shared st.place).country
        = true by simp [htr])]

/-- Witness for C3: a row titled `T` whose URL carries the unresolvable hex
id `0xa:0xb`; the name strategy is skipped, the per-source cache untouched,
and the row lands in the failed-lookup list. -/
theorem conflict_gating_witness :
    extract_place_name "T" "x1s0xa:0xb" ≠ "" ∧
    (extract_place_id "x1s0xa:0xb").isSome = true ∧
    (∀ e ∈ (resolveRow apiNone "T" "x1s0xa:0xb"
        (RunState.mk [] [] [] [] []).shared (RunState.mk [] [] [] [] []).place).events,
       Ev.isNameEv e = false) ∧
    (resolveRow apiNone "T" "x1s0xa:0xb" (RunState.mk [] [] [] [] []).shared
        (RunState.mk [] [] [] [] []).place).place = (RunState.mk [] [] [] [] []).place ∧
    (stepRow apiNone (RunState.mk [] [] [] [] []) (Row.mk "T" "x1s0xa:0xb")).failedLookups
      = (RunState.mk [] [] [] [] []).failedLookups ++ [("T", "x1s0xa:0xb")] :=
  ⟨by decide, by decide,
   (conflict_gating apiNone (RunState.mk [] [] [] [] []) "T" "x1s0xa:0xb"
      (by decide) (by decide)).1,
   (conflict_gating apiNone (RunState.mk [] [] [] [] []) "T" "x1s0xa:0xb"
      (by decide) (by decide)).2.1,
   (conflict_gating apiNone (RunState.mk [] [] [] [] []) "T" "x1s0xa:0xb"
      (by decide) (by decide)).2.2 (by decide) (by decide)⟩

/-- C2: the resolver tries coordinates, then the hex Place ID, then the
place name, each later strategy only when every earlier one yielded no
truthy country: when the coordinate strategy yields a country the row's
events are exactly the coordinate strategy's (no hex cache lookup or
outbound hex call, no name lookup); any hex event implies the coordinate
strategy (if coordinates were present) yielded no country; and any name
event implies both earlier strategies yielded no country. -/
theorem strategy_priority (api : Oracle) (title url : String)
    (shared place : Cache) :
    (∀ lat lon, extract_coordinates_from_url url = some (lat, lon) →
       truthyStr (get_location_info_from_coordinates lat lon api shared).country
         = true →
       (resolveRow api title url shared place).events
         = (get_location_info_from_coordinates lat lon api shared).events ∧
       ∀ e ∈ (resolveRow api title url shared place).events,
         Ev.isCoordEv e = true) ∧
    ((∃ e ∈ (resolveRow api title url shared place).events, Ev.isHexEv e = true) →
       ∀ lat lon, extract_coordinates_from_url url = some (lat, lon) →
         truthyStr (get_location_info_from_coordinates lat lon api shared).country
           = false) ∧
    ((∃ e ∈ (resolveRow api title url shared place).events, Ev.isNameEv e = true) →
       (∀ lat lon, extract_coordinates_from_url url = some (lat, lon) →
          truthyStr (get_location_info_from_coordinates lat lon api shared).country
            = false) ∧
       (∀ hexId, extract_place_id url = some hexId →
          truthyStr (get_location_info_from_hex_place_id hexId api
            (sharedAfterCoords api url shared)).country = false)) := by
  refine ⟨?_, ?_, ?_⟩
  · intro lat lon hc ht
    rw [resolveRow_coord_hit api title url shared place lat lon hc ht]
    exact ⟨rfl, fun e he => coord_events lat lon api shared e he⟩
  · rintro ⟨e, he, hhexev⟩ lat lon hc
    cases htc : truthyStr (get_location_info_from_coordinates lat lon api
        shared).country with
    | false => rfl
    | true =>
        rw [resolveRow_coord_hit api title url shared place lat lon hc htc] at he
        have hnot := isCoordEv_not_hex e (coord_events lat lon api shared e he)
        rw [hnot] at hhexev
        cases hhexev
  · rintro ⟨e, he, hnameev⟩
    constructor
    · intro lat lon hc
      cases htc : truthyStr (get_location_info_from_coordinates lat lon api
          shared).country with
      | false => rfl
      | true =>
          rw [resolveRow_coord_hit api title url shared place lat lon hc htc] at he
          have hnot := isCoordEv_not_name e (coord_events lat lon api shared e he)
          rw [hnot] at hnameev
          cases hnameev
    · intro hexId hhex
      have hnot := resolveRow_no_name_events_of_hex api title url shared place
        hexId hhex e he
      rw [hnot] at hnameev
      cases hnameev

/-- Witness for C2: a URL with both coordinates and a hex id, where the
coordinate strategy resolves Germany: the row's events are the coordinate
strategy's two events only. -/
theorem strategy_priority_witness :
    extract_coordinates_from_url "/search/1.0,2.0/data=1s0xa:0xb"
      = some (DecFloat.mk false 1 [0], DecFloat.mk false 2 [0]) ∧
    truthyStr (get_location_info_from_coordinates (DecFloat.mk false 1 [0])
        (DecFloat.mk false 2 [0]) apiCoordGermany []).country = true ∧
    (resolveRow apiCoordGermany "T" "/search/1.0,2.0/data=1s0xa:0xb" [] []).events
      = (get_location_info_from_coordinates (DecFloat.mk false 1 [0])
          (DecFloat.mk false 2 [0]) apiCoordGermany []).events ∧
    ∀ e ∈ (resolveRow apiCoordGermany "T" "/search/1.0,2.0/data=1s0xa:0xb" [] []).events,
      Ev.isCoordEv e = true :=
  ⟨by decide, by decide,
   ((strategy_priority apiCoordGermany "T" "/search/1.0,2.0/data=1s0xa:0xb" [] []).1
      (DecFloat.mk false 1 [0]) (DecFloat.mk false 2 [0]) (by decide) (by decide)).1,
   ((strategy_priority apiCoordGermany "T" "/search/1.0,2.0/data=1s0xa:0xb" [] []).1
      (DecFloat.mk false 1 [0]) (DecFloat.mk false 2 [0]) (by decide) (by decide)).2⟩

/-- C7 counterexample: on a provider response carrying an
administrative_area_level_1 component but no country component, the
coordinate strategy returns — and caches — a record with a null country
and a non-null state, against the claim. -/
theorem state_without_country_cex :
    (get_location_info_from_coordinates (DecFloat.mk false 1 [])
        (DecFloat.mk false 2 []) apiAdminOnly []).country = none ∧
    (get_location_info_from_coordinates (DecFloat.mk false 1 [])
        (DecFloat.mk false 2 []) apiAdminOnly []).state = some "California" ∧
    dget (get_location_info_from_coordinates (DecFloat.mk false 1 [])
        (DecFloat.mk false 2 []) apiAdminOnly []).cache
        (coordCacheKey (DecFloat.mk false 1 []) (DecFloat.mk false 2 []))
      = some (.jRec none (some "California")) :=
  ⟨by decide, by decide, by decide⟩

/-- C7 amended: provided every provider response yields a country whenever
the component scan yields a state, and the incoming namespace already
satisfies the invariant, no strategy returns or caches a record with null
country and non-null state. -/
theorem state_implies_country (api : Oracle) (cache : Cache)
    (hapi : goodOracle api) (hc : cacheStatesHaveCountry cache) :
    (∀ lat lon,
       ((get_location_info_from_coordinates lat lon api cache).state.isSome →
        (get_location_info_from_coordinates lat lon api cache).country.isSome) ∧
       cacheStatesHaveCountry
         (get_location_info_from_coordinates lat lon api cache).cache) ∧
    (∀ hexId,
       ((get_location_info_from_hex_place_id hexId api cache).state.isSome →
        (get_location_info_from_hex_place_id hexId api cache).country.isSome) ∧
       cacheStatesHaveCountry
         (get_location_info_from_hex_place_id hexId api cache).cache) ∧
    (∀ name,
       ((get_location_info_from_place_name name api cache).state.isSome →
        (get_location_info_from_place_name name api cache).country.isSome) ∧
       cacheStatesHaveCountry
         (get_location_info_from_place_name name api cache).cache) :=
  ⟨fun lat lon => coord_inv lat lon api cache (hapi.1 lat lon) hc,
   fun hexId => hex_inv hexId api cache hapi.2.1 hc,
   fun name => name_inv name api cache (hapi.2.2 name) hc⟩

/-- Witness for C7's amended claim: the failing oracle is good, the empty
cache satisfies the invariant, and the coordinate strategy preserves
both. -/
theorem state_implies_country_witness :
    goodOracle apiNone ∧ cacheStatesHaveCountry ([] : Cache) ∧
    (((get_location_info_from_coordinates (DecFloat.mk false 1 [])
        (DecFloat.mk false 2 []) apiNone []).state.isSome →
      (get_location_info_from_coordinates (DecFloat.mk false 1 [])
        (DecFloat.mk false 2 []) apiNone []).country.isSome) ∧
     cacheStatesHaveCountry (get_location_info_from_coordinates (DecFloat.mk false 1 [])
        (DecFloat.mk false 2 []) apiNone []).cache) :=
  ⟨apiNone_good, empty_cache_inv,
   (state_implies_country apiNone [] apiNone_good empty_cache_inv).1
     (DecFloat.mk false 1 []) (DecFloat.mk false 2 [])⟩

/-- C8 counterexample: a run over one row titled `schema_version` (whose
place name resolves) writes a per-source cache file whose top-level
`schema_version` entry is the resolved record, not the schema version
constant — the reserved key was used as a cache key. -/
theorem schema_version_clobbered_cex :
    fsRead (runMain apiSchemaName [Row.mk "schema_version" "u"] none "shared.json"
        "x_place_names.json" (FS.mk [])).fs "x_place_names.json"
      = some [("schema_version", JVal.jRec (some "Germany") none)] ∧
    dget ((fsRead (runMain apiSchemaName [Row.mk "schema_version" "u"] none
        "shared.json" "x_place_names.json" (FS.mk [])).fs
        "x_place_names.json").getD []) "schema_version"
      ≠ some (JVal.jInt CACHE_SCHEMA_VERSION) :=
  ⟨by decide, by decide⟩

/-- C8 amended: in any run whose loaded files are honest dicts and in which
no row's extracted place name is the literal `schema_version`, neither
namespace ever maps that key (coordinate keys contain a comma and hex keys
start `hex:`, so only a place name could collide), and both written cache
files carry the tag `schema_version = 3` with the entry set being exactly
the namespace. -/
theorem schema_version_reserved (api : Oracle) (rows : List Row)
    (interruptAfter : Option Nat) (sf pf : String) (fs : FS) (hne : sf ≠ pf)
    (hwf : ∀ path obj, fsRead fs path = some obj → (dkeys obj).Nodup)
    (hrows : ∀ row ∈ rows,
      extract_place_name row.title row.url ≠ "schema_version") :
    dget (runMain api rows interruptAfter sf pf fs).state.shared "schema_version"
      = none ∧
    dget (runMain api rows interruptAfter sf pf fs).state.place "schema_version"
      = none ∧
    fsRead (runMain api rows interruptAfter sf pf fs).fs sf
      = some (cacheWithSchema (runMain api rows interruptAfter sf pf fs).state.shared) ∧
    fsRead (runMain api rows interruptAfter sf pf fs).fs pf
      = some (cacheWithSchema (runMain api rows interruptAfter sf pf fs).state.place) ∧
    dget (cacheWithSchema (runMain api rows interruptAfter sf pf fs).state.shared)
      "schema_version" = some (.jInt CACHE_SCHEMA_VERSION) ∧
    dget (cacheWithSchema (runMain api rows interruptAfter sf pf fs).state.place)
      "schema_version" = some (.jInt CACHE_SCHEMA_VERSION) ∧
    stripSchema (cacheWithSchema (runMain api rows interruptAfter sf pf fs).state.shared)
      = (runMain api rows interruptAfter sf pf fs).state.shared ∧
    stripSchema (cacheWithSchema (runMain api rows interruptAfter sf pf fs).state.place)
      = (runMain api rows interruptAfter sf pf fs).state.place := by
  have hload := load_cache_sv_nodup sf pf fs hwf
  have hshared_sv : dget (runMain api rows interruptAfter sf pf fs).state.shared
      "schema_version" = none := by
    rw [runMain_eq]
    exact runLoop_shared_pred api interruptAfter rows _
      (fun c => dget c "schema_version" = none) hload.1
      (fun lat lon c h => coord_sv lat lon api c h)
      (fun hexId c h => hex_sv hexId api c h)
  have hplace_sv : dget (runMain api rows interruptAfter sf pf fs).state.place
      "schema_version" = none := by
    rw [runMain_eq]
    exact runLoop_place_pred api interruptAfter rows _
      (fun c => dget c "schema_version" = none) hload.2.1
      (fun row hr c h =>
        name_sv (extract_place_name row.title row.url) api c (hrows row hr) h)
  have hshared_nd : (dkeys (runMain api rows interruptAfter sf pf
      fs).state.shared).Nodup := by
    rw [runMain_eq]
    exact runLoop_shared_pred api interruptAfter rows _
      (fun c => (dkeys c).Nodup) hload.2.2.1
      (fun lat lon c h => coord_nodup lat lon api c h)
      (fun hexId c h => hex_nodup hexId api c h)
  have hplace_nd : (dkeys (runMain api rows interruptAfter sf pf
      fs).state.place).Nodup := by
    rw [runMain_eq]
    exact runLoop_place_pred api interruptAfter rows _
      (fun c => (dkeys c).Nodup) hload.2.2.2
      (fun row hr c h => name_nodup (extract_place_name row.title row.url) api c h)
  have hcwsS := cacheWithSchema_spec _ hshared_sv hshared_nd
  have hcwsP := cacheWithSchema_spec _ hplace_sv hplace_nd
  refine ⟨hshared_sv, hplace_sv, ?_, ?_, hcwsS.1, hcwsP.1, hcwsS.2, hcwsP.2⟩
  · rw [runMain_eq]
    exact (finalize_reads sf pf _ _ hne).1
  · rw [runMain_eq]
    exact (finalize_reads sf pf _ _ hne).2.1

/-- Witness for C8's amended claim: an unresolvable row titled `t` on an
empty filesystem; the per-source namespace has no `schema_version` key and
the written tag is the constant. -/
theorem schema_version_reserved_witness :
    ("a" : String) ≠ "b" ∧
    (∀ path obj, fsRead (FS.mk []) path = some obj → (dkeys obj).Nodup) ∧
    (∀ row ∈ [Row.mk "t" "u"],
      extract_place_name row.title row.url ≠ "schema_version") ∧
    dget (runMain apiNone [Row.mk "t" "u"] none "a" "b" (FS.mk [])).state.place
      "schema_version" = none ∧
    dget (cacheWithSchema (runMain apiNone [Row.mk "t" "u"] none "a" "b"
        (FS.mk [])).state.place) "schema_version"
      = some (.jInt CACHE_SCHEMA_VERSION) :=
  ⟨by decide,
   fun path obj h => by simp [fsRead, dget] at h,
   by
     intro row hr
     simp only [List.mem_singleton] at hr
     subst hr
     decide,
   (schema_version_reserved apiNone [Row.mk "t" "u"] none "a" "b" (FS.mk [])
      (by decide) (fun path obj h => by simp [fsRead, dget] at h)
      (by
        intro row hr
        simp only [List.mem_singleton] at hr
        subst hr
        decide)).2.1,
   (schema_version_reserved apiNone [Row.mk "t" "u"] none "a" "b" (FS.mk [])
      (by decide) (fun path obj h => by simp [fsRead, dget] at h)
      (by
        intro row hr
        simp only [List.mem_singleton] at hr
        subst hr
        decide)).2.2.2.2.2.1⟩

end CountryCounter
